import Mathlib

/-!
# Verification of the pong repository's physics / scoring / AI core

Shallow embedding of the JavaScript sources:

* `AIM` — the `AI` class of `src/ai.js` (difficulty presets, per-frame state
  machine, adaptive difficulty controller).  All numeric state is `ℚ`, the
  JavaScript `Math.random()` samples are passed in explicitly as parameters.
* `Game` — the game script appended to `src/ai.js` (globals `ballDirection`,
  `playerScore`, …, functions `checkPaddleCollision`, `checkTableCollision`,
  `resetBall`).  This part normalizes vectors, so it is embedded over `ℝ`.
* `Phys` — the physics engine of `src/unnamed/part_001` (`resolveCollision`
  for a dynamic sphere against a static plane).

Mutation of JavaScript objects is modelled by explicit state passing; each
embedded function returns the updated state.  DOM/console/audio calls are
no-ops on the modelled state and are dropped.
-/

set_option maxHeartbeats 1000000

namespace PongSpec

/-- A 3-component vector, mirroring `THREE.Vector3`. -/
structure Vec3 (α : Type) where
  x : α
  y : α
  z : α
  deriving DecidableEq

namespace AIM

/-- String key of the easy difficulty (`AI_DIFFICULTY.EASY`). -/
def easyKey : String := "easy"

/-- String key of the medium difficulty (`AI_DIFFICULTY.MEDIUM`). -/
def mediumKey : String := "medium"

/-- String key of the hard difficulty (`AI_DIFFICULTY.HARD`). -/
def hardKey : String := "hard"

/-- String key of the adaptive difficulty (`AI_DIFFICULTY.ADAPTIVE`). -/
def adaptiveKey : String := "adaptive"

/-- One difficulty configuration record of `AI_CONFIG` in `src/ai.js`.
`adaptationRate` is only present on the adaptive preset, hence `Option`. -/
structure AIConfig where
  reactionTime : ℚ
  movementSpeed : ℚ
  accuracy : ℚ
  prediction : ℚ
  errorRate : ℚ
  returnHeight : ℚ
  returnSpeed : ℚ
  spinRate : ℚ
  recoverySpeed : ℚ
  aggression : ℚ
  consistency : ℚ
  adaptationRate : Option ℚ
  deriving DecidableEq

/-- `AI_CONFIG[AI_DIFFICULTY.EASY]`. -/
def easyPreset : AIConfig :=
  { reactionTime := 0.8, movementSpeed := 0.5, accuracy := 0.5,
    prediction := 0.3, errorRate := 0.4, returnHeight := 0.3,
    returnSpeed := 0.6, spinRate := 0.3, recoverySpeed := 0.5,
    aggression := 0.2, consistency := 0.4, adaptationRate := none }

/-- `AI_CONFIG[AI_DIFFICULTY.MEDIUM]`. -/
def mediumPreset : AIConfig :=
  { reactionTime := 0.5, movementSpeed := 0.7, accuracy := 0.7,
    prediction := 0.6, errorRate := 0.2, returnHeight := 0.5,
    returnSpeed := 0.8, spinRate := 0.6, recoverySpeed := 0.7,
    aggression := 0.5, consistency := 0.7, adaptationRate := none }

/-- `AI_CONFIG[AI_DIFFICULTY.HARD]`. -/
def hardPreset : AIConfig :=
  { reactionTime := 0.2, movementSpeed := 0.9, accuracy := 0.9,
    prediction := 0.9, errorRate := 0.05, returnHeight := 0.6,
    returnSpeed := 0.95, spinRate := 0.8, recoverySpeed := 0.9,
    aggression := 0.8, consistency := 0.9, adaptationRate := none }

/-- `AI_CONFIG[AI_DIFFICULTY.ADAPTIVE]`. -/
def adaptivePreset : AIConfig :=
  { reactionTime := 0.5, movementSpeed := 0.7, accuracy := 0.7,
    prediction := 0.6, errorRate := 0.2, returnHeight := 0.5,
    returnSpeed := 0.8, spinRate := 0.6, recoverySpeed := 0.7,
    aggression := 0.5, consistency := 0.7, adaptationRate := some 0.1 }

/-- The string-keyed lookup `AI_CONFIG[difficulty]`: `none` models the
JavaScript `undefined` for an unrecognized key. -/
def aiConfigGet (d : String) : Option AIConfig :=
  match d with
  | "easy" => some easyPreset
  | "medium" => some mediumPreset
  | "hard" => some hardPreset
  | "adaptive" => some adaptivePreset
  | _ => none

/-- The `AI_STATE` enumeration. -/
inductive AIStateTag where
  | idle
  | preparing
  | tracking
  | returning
  | moving
  | celebrating
  | frustrated
  deriving DecidableEq

/-- The `playerPatterns` record.  JavaScript numbers, kept as `ℚ`. -/
structure PlayerPatterns where
  leftSide : ℚ
  rightSide : ℚ
  shortBalls : ℚ
  longBalls : ℚ
  spinBalls : ℚ
  deriving DecidableEq

/-- The mutable fields of an `AI` instance.  `paddle` is the position of the
paddle object the AI drives (the AI only ever writes its `x` coordinate). -/
structure AIS where
  difficulty : String
  config : AIConfig
  adaptiveConfig : AIConfig
  state : AIStateTag
  stateTime : ℚ
  reactionTimer : ℚ
  decisionTimer : ℚ
  anticipationPoint : Vec3 ℚ
  lastKnownBallPosition : Vec3 ℚ
  basePosition : Vec3 ℚ
  paddle : Vec3 ℚ
  playerPatterns : PlayerPatterns
  consecutivePointsLost : ℕ
  consecutivePointsWon : ℕ
  deriving DecidableEq

/-- The constructor of `AI` for a recognized difficulty key, followed by
`initialize()` (which copies the paddle position into `basePosition`). -/
def mkAI (d : String) (paddlePos : Vec3 ℚ) : AIS :=
  let cfg := (aiConfigGet d).getD mediumPreset
  { difficulty := d, config := cfg, adaptiveConfig := cfg,
    state := AIStateTag.idle, stateTime := 0, reactionTimer := 0,
    decisionTimer := 0, anticipationPoint := ⟨0, 0, 0⟩,
    lastKnownBallPosition := ⟨0, 0, 0⟩, basePosition := paddlePos,
    paddle := paddlePos, playerPatterns := ⟨0, 0, 0, 0, 0⟩,
    consecutivePointsLost := 0, consecutivePointsWon := 0 }

/-- `changeState(newState)`. -/
def changeState (n : AIStateTag) (s : AIS) : AIS :=
  { s with state := n, stateTime := 0 }

/-- `Math.sign`. -/
def msign (q : ℚ) : ℚ :=
  if 0 < q then 1 else if q < 0 then -1 else 0

/-- `isBallApproaching(ballPosition, ballVelocity)`: the ball approaches the
AI side exactly when its z-velocity is positive. -/
def isBallApproaching (ballVel : Vec3 ℚ) : Prop := 0 < ballVel.z

instance (v : Vec3 ℚ) : Decidable (isBallApproaching v) := by
  unfold isBallApproaching; infer_instance

/-- `calculateAnticipationPoint(ballPosition, ballVelocity)`.  `rand` is the
`Math.random()` sample used for the accuracy offset. -/
def calculateAnticipationPoint (rand : ℚ) (ballPos ballVel : Vec3 ℚ)
    (s : AIS) : AIS :=
  let aiTableZ := s.paddle.z - 0.5
  if |ballVel.z| < 0.001 then s
  else
    let timeToReach := (aiTableZ - ballPos.z) / ballVel.z
    if timeToReach ≤ 0 then s
    else
      let ax := ballPos.x + ballVel.x * timeToReach
      let ay := ballPos.y + ballVel.y * timeToReach
      let accuracyFactor := 1 - s.config.accuracy
      let ax := ax + (rand * 2 - 1) * accuracyFactor
      let ax := max (-2) (min 2 ax)
      { s with anticipationPoint := ⟨ax, ay, aiTableZ⟩ }

/-- `moveTowardsAnticipationPoint(deltaTime)`. -/
def moveTowardsAnticipationPoint (dt : ℚ) (s : AIS) : AIS :=
  let targetX := s.anticipationPoint.x
  let distance := targetX - s.paddle.x
  let speed := s.config.movementSpeed * 5
  let moveAmount := speed * dt
  if |distance| ≤ moveAmount then
    { s with paddle := { s.paddle with x := targetX } }
  else
    { s with paddle := { s.paddle with x := s.paddle.x + msign distance * moveAmount } }

/-- `moveTowardsBasePosition(deltaTime)`; the Boolean is its return value
(`true` when the paddle has reached the base position). -/
def moveTowardsBasePosition (dt : ℚ) (s : AIS) : AIS × Bool :=
  let distance := s.basePosition.x - s.paddle.x
  if |distance| < 0.1 then
    ({ s with paddle := { s.paddle with x := s.basePosition.x } }, true)
  else
    let speed := s.config.recoverySpeed * 3
    let moveAmount := speed * dt
    ({ s with paddle := { s.paddle with x := s.paddle.x + msign distance * moveAmount } }, false)

/-- `isReadyToReturnBall(ballPosition)`. -/
def isReadyToReturnBall (ballPos : Vec3 ℚ) (s : AIS) : Prop :=
  |ballPos.z - (s.paddle.z - 0.5)| < 0.2

instance (p : Vec3 ℚ) (s : AIS) : Decidable (isReadyToReturnBall p s) := by
  unfold isReadyToReturnBall; infer_instance

/-- `returnBall()`'s effect on the ball's velocity (the ball is external to
the AI state; this function is the velocity mutation applied to it).
`r1 r2 r3` are the three `Math.random()` samples. -/
def returnBallVel (r1 r2 r3 : ℚ) (cfg : AIConfig) (v : Vec3 ℚ) : Vec3 ℚ :=
  let v := { v with z := -v.z }
  let powerFactor := cfg.returnSpeed
  let v : Vec3 ℚ := ⟨v.x * powerFactor, v.y * powerFactor, v.z * powerFactor⟩
  let randomFactor := 1 - cfg.accuracy
  let v := { v with x := v.x + (r1 * 2 - 1) * randomFactor }
  let v := { v with y := max 0.1 v.y }
  if r2 < cfg.spinRate then
    { v with x := v.x + (r3 * 2 - 1) * cfg.spinRate }
  else v

/-- `executeIdleState`. -/
def executeIdleState (dt : ℚ) (ballVel : Vec3 ℚ) (s : AIS) : AIS :=
  if 0 < ballVel.z then
    { changeState AIStateTag.preparing s with reactionTimer := 0 }
  else
    (moveTowardsBasePosition dt s).1

/-- `executePreparingState`.  `rand` feeds the anticipation-point computation
performed on the transition to `TRACKING`. -/
def executePreparingState (rand dt : ℚ) (ballPos ballVel : Vec3 ℚ)
    (s : AIS) : AIS :=
  let s := { s with reactionTimer := s.reactionTimer + dt }
  if ¬ 0 < ballVel.z then
    changeState AIStateTag.idle s
  else if s.config.reactionTime ≤ s.reactionTimer then
    calculateAnticipationPoint rand ballPos ballVel
      (changeState AIStateTag.tracking s)
  else
    (moveTowardsBasePosition dt s).1

/-- `executeTrackingState`. -/
def executeTrackingState (rand dt : ℚ) (ballPos ballVel : Vec3 ℚ)
    (s : AIS) : AIS :=
  if ¬ 0 < ballVel.z then
    changeState AIStateTag.idle s
  else
    let s :=
      if 0.1 < s.stateTime then
        { calculateAnticipationPoint rand ballPos ballVel s with stateTime := 0 }
      else s
    let s := moveTowardsAnticipationPoint dt s
    if |ballPos.z - (s.paddle.z - 0.5)| < 0.2 then
      changeState AIStateTag.returning s
    else s

/-- `executeReturningState`.  The `returnBall()` call mutates only the ball
(modelled by `returnBallVel`), so on the AI state it is the state change. -/
def executeReturningState (s : AIS) : AIS :=
  if 0.1 < s.stateTime then changeState AIStateTag.moving s else s

/-- `executeMovingState`. -/
def executeMovingState (dt : ℚ) (s : AIS) : AIS :=
  let r := moveTowardsBasePosition dt s
  if r.2 then changeState AIStateTag.idle r.1 else r.1

/-- `executeCelebratingState`. -/
def executeCelebratingState (s : AIS) : AIS :=
  if 1 < s.stateTime then changeState AIStateTag.moving s else s

/-- `executeFrustratedState`. -/
def executeFrustratedState (s : AIS) : AIS :=
  if 1 < s.stateTime then changeState AIStateTag.moving s else s

/-- `makeDecisions()`. -/
def makeDecisions (s : AIS) : AIS :=
  let totalShots := s.playerPatterns.leftSide + s.playerPatterns.rightSide
  if 5 < totalShots then
    if s.playerPatterns.rightSide * 1.5 < s.playerPatterns.leftSide then
      { s with basePosition := { s.basePosition with x := -0.3 } }
    else if s.playerPatterns.leftSide * 1.5 < s.playerPatterns.rightSide then
      { s with basePosition := { s.basePosition with x := 0.3 } }
    else
      { s with basePosition := { s.basePosition with x := 0 } }
  else s

/-- The decision-cadence tail of `update`: accumulate `decisionTimer` and run
`makeDecisions` every 0.5 seconds. -/
def decisionPhase (dt : ℚ) (s : AIS) : AIS :=
  let s := { s with decisionTimer := s.decisionTimer + dt }
  if 0.5 ≤ s.decisionTimer then
    { makeDecisions s with decisionTimer := 0 }
  else s

/-- `update(deltaTime)`, assuming the paddle/ball/gameState references are
wired (otherwise the source returns immediately).  The ball's position and
velocity are read from the simulation each tick and passed in; `rand` is the
`Math.random()` sample consumed if an anticipation point is computed. -/
def update (rand dt : ℚ) (ballPos ballVel : Vec3 ℚ) (s : AIS) : AIS :=
  let s := { s with stateTime := s.stateTime + dt,
                    lastKnownBallPosition := ballPos }
  let s :=
    match s.state with
    | AIStateTag.idle => executeIdleState dt ballVel s
    | AIStateTag.preparing => executePreparingState rand dt ballPos ballVel s
    | AIStateTag.tracking => executeTrackingState rand dt ballPos ballVel s
    | AIStateTag.returning => executeReturningState s
    | AIStateTag.moving => executeMovingState dt s
    | AIStateTag.celebrating => executeCelebratingState s
    | AIStateTag.frustrated => executeFrustratedState s
  decisionPhase dt s

/-- `adjustDifficulty(makeEasier)`.  The adaptation rate is read from the
active configuration; on the guarded (adaptive) path it is always present,
`getD 0` stands for the absent-field case that the guard excludes. -/
def adjustDifficulty (makeEasier : Bool) (s : AIS) : AIS :=
  if s.difficulty ≠ adaptiveKey then s
  else
    let adjustRate := s.config.adaptationRate.getD 0
    let c := s.adaptiveConfig
    let c' : AIConfig :=
      { reactionTime :=
          if makeEasier then min 1 (c.reactionTime + adjustRate)
          else max 0.1 (c.reactionTime - adjustRate),
        errorRate :=
          if makeEasier then min 1 (c.errorRate + adjustRate)
          else max 0.1 (c.errorRate - adjustRate),
        movementSpeed :=
          if makeEasier then max 0.1 (c.movementSpeed - adjustRate)
          else min 1 (c.movementSpeed + adjustRate),
        accuracy :=
          if makeEasier then max 0.1 (c.accuracy - adjustRate)
          else min 1 (c.accuracy + adjustRate),
        prediction :=
          if makeEasier then max 0.1 (c.prediction - adjustRate)
          else min 1 (c.prediction + adjustRate),
        returnHeight :=
          if makeEasier then max 0.1 (c.returnHeight - adjustRate)
          else min 1 (c.returnHeight + adjustRate),
        returnSpeed :=
          if makeEasier then max 0.1 (c.returnSpeed - adjustRate)
          else min 1 (c.returnSpeed + adjustRate),
        spinRate :=
          if makeEasier then max 0.1 (c.spinRate - adjustRate)
          else min 1 (c.spinRate + adjustRate),
        recoverySpeed :=
          if makeEasier then max 0.1 (c.recoverySpeed - adjustRate)
          else min 1 (c.recoverySpeed + adjustRate),
        aggression :=
          if makeEasier then max 0.1 (c.aggression - adjustRate)
          else min 1 (c.aggression + adjustRate),
        consistency :=
          if makeEasier then max 0.1 (c.consistency - adjustRate)
          else min 1 (c.consistency + adjustRate),
        adaptationRate := c.adaptationRate }
    { s with adaptiveConfig := c', config := c' }

/-- `onPlayerScored()`: the human won the point. -/
def onPlayerScored (s : AIS) : AIS :=
  let s := { s with consecutivePointsLost := s.consecutivePointsLost + 1,
                    consecutivePointsWon := 0 }
  let s := if s.difficulty = adaptiveKey then adjustDifficulty true s else s
  changeState AIStateTag.frustrated s

/-- `onAIScored()`: the AI won the point. -/
def onAIScored (s : AIS) : AIS :=
  let s := { s with consecutivePointsWon := s.consecutivePointsWon + 1,
                    consecutivePointsLost := 0 }
  let s := if s.difficulty = adaptiveKey then adjustDifficulty false s else s
  changeState AIStateTag.celebrating s

/-- `setDifficulty(difficulty)`. -/
def setDifficulty (d : String) (s : AIS) : AIS :=
  match aiConfigGet d with
  | some c => { s with difficulty := d, config := c, adaptiveConfig := c }
  | none => s

end AIM

namespace Game

noncomputable section

open Classical

/-- Squared Euclidean norm. -/
def normSq (v : Vec3 ℝ) : ℝ := v.x ^ 2 + v.y ^ 2 + v.z ^ 2

/-- Euclidean length (`THREE.Vector3.length`). -/
def vlen (v : Vec3 ℝ) : ℝ := Real.sqrt (normSq v)

/-- `THREE.Vector3.multiplyScalar`. -/
def vscale (c : ℝ) (v : Vec3 ℝ) : Vec3 ℝ := ⟨c * v.x, c * v.y, c * v.z⟩

/-- Componentwise sum (`THREE.Vector3.add`). -/
def vadd (a b : Vec3 ℝ) : Vec3 ℝ := ⟨a.x + b.x, a.y + b.y, a.z + b.z⟩

/-- `THREE.Vector3.normalize`: divide by the length.  (On the zero vector the
source produces NaN components; that case is never exercised here.) -/
def vnormalize (v : Vec3 ℝ) : Vec3 ℝ := vscale (vlen v)⁻¹ v

/-- `THREE.Vector3.distanceTo`. -/
def vdist (a b : Vec3 ℝ) : ℝ := vlen ⟨a.x - b.x, a.y - b.y, a.z - b.z⟩

/-- `THREE.MathUtils.clamp(value, min, max)`. -/
def clampR (v lo hi : ℝ) : ℝ := max lo (min hi v)

/-- The constant `BALL_SPEED`. -/
def ballSpeed : ℝ := 0.10

/-- The global mutable state of the game script appended to `src/ai.js`
(only the fields the embedded functions touch). -/
structure GameState where
  ballPos : Vec3 ℝ
  ballDir : Vec3 ℝ
  playerScore : ℕ
  opponentScore : ℕ
  isGameStarted : Bool
  isGameOver : Bool
  lastHitByPlayer : Bool

/-- `resetBall()`: serve from the side opposite the last hitter; `r1 r2 r3`
are the three `Math.random()` samples of the chosen branch. -/
def resetBall (r1 r2 r3 : ℝ) (s : GameState) : GameState :=
  if s.lastHitByPlayer then
    let dir : Vec3 ℝ := ⟨(r1 - 0.5) * 0.3, 0.15 + r2 * 0.2, 0.5 + r3 * 0.15⟩
    { s with ballPos := ⟨0, 0.5, -3⟩,
             ballDir := vscale (ballSpeed * 1.2) (vnormalize dir) }
  else
    let dir : Vec3 ℝ := ⟨(r1 - 0.5) * 0.3, 0.15 + r2 * 0.2, -0.5 - r3 * 0.15⟩
    { s with ballPos := ⟨0, 0.5, 3⟩,
             ballDir := vscale (ballSpeed * 1.2) (vnormalize dir) }

/-- `gameOver()` (DOM manipulation dropped). -/
def gameOverStep (s : GameState) : GameState :=
  { s with isGameOver := true, isGameStarted := false }

/-- The repeated end-of-point block
`if (playerScore >= 11 || opponentScore >= 11) gameOver(); else resetBall();`. -/
def scoreOrReset (r1 r2 r3 : ℝ) (s : GameState) : GameState :=
  if 11 ≤ s.playerScore ∨ 11 ≤ s.opponentScore then gameOverStep s
  else resetBall r1 r2 r3 s

/-- First block of `checkTableCollision()`: the table-surface bounce, which
also lifts the ball to `y = -0.39` (the `ballPos` alias makes the later
out-of-bounds test read this updated position). -/
def tableBounceStep (s : GameState) : GameState :=
  if s.ballPos.y < -0.4 ∧ s.ballDir.y < 0 then
    { s with ballDir := { s.ballDir with y := -s.ballDir.y * 0.8 },
             ballPos := { s.ballPos with y := -0.39 } }
  else s

/-- Second block of `checkTableCollision()`: side-boundary reflection. -/
def sideWallStep (s : GameState) : GameState :=
  if 2 < |s.ballPos.x| then
    { s with ballDir := { s.ballDir with x := -s.ballDir.x } }
  else s

/-- The scoring part of `checkTableCollision()` (out-of-bounds landing, the
two back-wall fallbacks, and the net test), with the source's early-return
structure rendered as nested if-then-else. -/
def scoringStep (r1 r2 r3 : ℝ) (s : GameState) : GameState :=
  if (s.ballPos.y < -0.4 ∧ -0.6 < s.ballPos.y) ∧
      (2 < |s.ballPos.x| ∨ 4 < |s.ballPos.z|) then
    -- out-of-bounds landing: the point goes to the last hitter
    let s :=
      if s.lastHitByPlayer then { s with playerScore := s.playerScore + 1 }
      else { s with opponentScore := s.opponentScore + 1 }
    scoreOrReset r1 r2 r3 s
  else if s.ballPos.z < -7.5 then
    -- back wall behind the AI: player scores, no game-over check
    resetBall r1 r2 r3 { s with playerScore := s.playerScore + 1 }
  else if 7.5 < s.ballPos.z then
    -- wall behind the player: opponent scores, no game-over check
    resetBall r1 r2 r3 { s with opponentScore := s.opponentScore + 1 }
  else if |s.ballPos.z| < 0.1 ∧ s.ballPos.y < 0.3 then
    if s.ballPos.y < 0 then
      -- net contact: reflect z and give the point to the non-hitter
      let s := { s with ballDir := { s.ballDir with z := -s.ballDir.z } }
      let s :=
        if s.lastHitByPlayer then { s with opponentScore := s.opponentScore + 1 }
        else { s with playerScore := s.playerScore + 1 }
      scoreOrReset r1 r2 r3 s
    else s
  else s

/-- `checkTableCollision()` in the game script of `src/ai.js`. -/
def checkTableCollision (r1 r2 r3 : ℝ) (s : GameState) : GameState :=
  scoringStep r1 r2 r3 (sideWallStep (tableBounceStep s))

/-- The swing direction built from the mouse direction (screen y inverted). -/
def swingDirection (mdx mdy : ℝ) : Vec3 ℝ := ⟨mdx, 0, -mdy⟩

/-- The swing-or-default part of the new direction in
`checkPaddleCollision()`: 70% of the swing direction, z flipped toward the
opponent, or the default forward `(0,0,-1)` for a slow swing. -/
def basePaddleDirection (mouseSpeed mdx mdy : ℝ) : Vec3 ℝ :=
  if 0.01 < mouseSpeed then
    let d := vscale 0.7 (swingDirection mdx mdy)
    if 0 < d.z then { d with z := -d.z } else d
  else ⟨0, 0, -1⟩

/-- The new direction assembled in `checkPaddleCollision()` before
normalization: swing (or default forward), tilt contribution, and
hit-point-offset contribution. -/
def rawPaddleDirection (mouseSpeed mdx mdy paddleTilt ox oy : ℝ) : Vec3 ℝ :=
  let tiltContribution : Vec3 ℝ :=
    ⟨0, Real.sin paddleTilt * 0.8, Real.cos paddleTilt * (-0.8)⟩
  let hitPointInfluence : Vec3 ℝ := ⟨ox * 0.5, oy * 0.3, 0⟩
  vadd (vadd (basePaddleDirection mouseSpeed mdx mdy)
    (vscale 0.2 tiltContribution)) (vscale 0.1 hitPointInfluence)

/-- `speedMultiplier = clamp(0.8 + mouseSpeed * 15, 0.8, 1.8)`. -/
def speedMultiplier (mouseSpeed : ℝ) : ℝ := clampR (0.8 + mouseSpeed * 15) 0.8 1.8

/-- The first post-hit fixup of `checkPaddleCollision()`: if the vertical
component falls below 0.05, set it to 0.05 and re-run
`normalize().multiplyScalar(speed)`. -/
def floorFix (speed : ℝ) (v : Vec3 ℝ) : Vec3 ℝ :=
  if v.y < 0.05 then vscale speed (vnormalize ⟨v.x, 0.05, v.z⟩) else v

/-- The second post-hit fixup of `checkPaddleCollision()`: if the z component
points back at the player, flip it and re-run
`normalize().multiplyScalar(speed)`. -/
def forwardFix (speed : ℝ) (v : Vec3 ℝ) : Vec3 ℝ :=
  if 0 < v.z then vscale speed (vnormalize ⟨v.x, v.y, -v.z⟩) else v

/-- The ball velocity produced by a player-paddle hit: normalize the raw
direction, scale by `BALL_SPEED * speedMultiplier`, then apply the two
post-hit fixups (vertical floor 0.05, then forward-z flip). -/
def hitVelocity (mouseSpeed mdx mdy paddleTilt ox oy : ℝ) : Vec3 ℝ :=
  let speed := ballSpeed * speedMultiplier mouseSpeed
  forwardFix speed (floorFix speed
    (vscale speed (vnormalize (rawPaddleDirection mouseSpeed mdx mdy paddleTilt ox oy))))

/-- `checkPaddleCollision()` of the game script: on contact (distance below
0.5 and the ball moving toward the player) record the player as last hitter
and replace the ball direction with `hitVelocity`. -/
def checkPaddleCollision (mouseSpeed mdx mdy paddleTilt : ℝ) (paddlePos : Vec3 ℝ)
    (s : GameState) : GameState :=
  if vdist paddlePos s.ballPos < 0.5 ∧ 0 < s.ballDir.z then
    { s with lastHitByPlayer := true,
             ballDir := hitVelocity mouseSpeed mdx mdy paddleTilt
               (s.ballPos.x - paddlePos.x) (s.ballPos.y - paddlePos.y) }
  else s

end

end Game

namespace Phys

/-- Componentwise difference over `ℚ` (`THREE.Vector3.sub`). -/
def qsub (a b : Vec3 ℚ) : Vec3 ℚ := ⟨a.x - b.x, a.y - b.y, a.z - b.z⟩

/-- Scalar multiple over `ℚ`. -/
def qscale (c : ℚ) (v : Vec3 ℚ) : Vec3 ℚ := ⟨c * v.x, c * v.y, c * v.z⟩

/-- Dot product (`THREE.Vector3.dot`). -/
def qdot (a b : Vec3 ℚ) : ℚ := a.x * b.x + a.y * b.y + a.z * b.z

/-- The velocity update of `resolveCollision` in `src/unnamed/part_001` for a
dynamic body `A` hitting a static body `B` with contact normal `n`:
`normalVel = n * (v·n)`; if `normalVel·n < 0` then
`v -= normalVel * (1 + restitution)`. -/
def resolveStaticVel (v n : Vec3 ℚ) (restitution : ℚ) : Vec3 ℚ :=
  let normalVel := qscale (qdot v n) n
  if qdot normalVel n < 0 then qsub v (qscale (1 + restitution) normalVel)
  else v

end Phys

/-! ## Sample states used by the concrete instantiations -/

/-- A medium-difficulty AI instance with its paddle at the AI serve spot. -/
def sampleAI : AIM.AIS := AIM.mkAI AIM.mediumKey ⟨0, 0.5, -3⟩

/-- An adaptive-difficulty AI instance. -/
def sampleAdaptiveAI : AIM.AIS := AIM.mkAI AIM.adaptiveKey ⟨0, 0.5, -3⟩

/-- A difficulty key that `AI_CONFIG` does not recognize. -/
def unknownKey : String := "expert"

/-! ## C8 — sphere-plane reflection law -/

/-- C8: for the dynamic-versus-static branch of `resolveCollision`, with a
unit contact normal and an approaching incident velocity (`v·n < 0`), the
post-bounce velocity has normal component exactly `-r * (v·n)` and an
unchanged tangential part. -/
theorem resolveStaticVel_reflection (v n : Vec3 ℚ) (r : ℚ)
    (hn : Phys.qdot n n = 1) (hv : Phys.qdot v n < 0) :
    Phys.qdot (Phys.resolveStaticVel v n r) n = -r * Phys.qdot v n ∧
    Phys.qsub (Phys.resolveStaticVel v n r)
        (Phys.qscale (Phys.qdot (Phys.resolveStaticVel v n r) n) n) =
      Phys.qsub v (Phys.qscale (Phys.qdot v n) n) := by
  have hn' : n.x * n.x + n.y * n.y + n.z * n.z = 1 := hn
  have hguard : Phys.qdot (Phys.qscale (Phys.qdot v n) n) n < 0 := by
    have h : Phys.qdot (Phys.qscale (Phys.qdot v n) n) n =
        Phys.qdot v n * Phys.qdot n n := by
      simp only [Phys.qdot, Phys.qscale]; ring
    rw [h, hn, mul_one]; exact hv
  have hres : Phys.resolveStaticVel v n r =
      Phys.qsub v (Phys.qscale (1 + r) (Phys.qscale (Phys.qdot v n) n)) := by
    simp only [Phys.resolveStaticVel]
    rw [if_pos hguard]
  have hnc : Phys.qdot (Phys.resolveStaticVel v n r) n = -r * Phys.qdot v n := by
    rw [hres]
    simp only [Phys.qdot, Phys.qsub, Phys.qscale]
    linear_combination (-(1 + r) * (v.x * n.x + v.y * n.y + v.z * n.z)) * hn'
  refine ⟨hnc, ?_⟩
  rw [hnc, hres]
  simp only [Phys.qdot, Phys.qsub, Phys.qscale, Vec3.mk.injEq]
  refine ⟨?_, ?_, ?_⟩ <;> ring

/-- C8 witness: a table-style bounce, normal `(0,1,0)`, restitution `0.95`,
incident velocity `(1,-2,3)`. -/
theorem resolveStaticVel_reflection_witness :
    (Phys.qdot (⟨0, 1, 0⟩ : Vec3 ℚ) ⟨0, 1, 0⟩ = 1 ∧
      Phys.qdot (⟨1, -2, 3⟩ : Vec3 ℚ) ⟨0, 1, 0⟩ < 0) ∧
    (Phys.qdot (Phys.resolveStaticVel ⟨1, -2, 3⟩ ⟨0, 1, 0⟩ 0.95) ⟨0, 1, 0⟩ =
        -0.95 * Phys.qdot (⟨1, -2, 3⟩ : Vec3 ℚ) ⟨0, 1, 0⟩ ∧
      Phys.qsub (Phys.resolveStaticVel ⟨1, -2, 3⟩ ⟨0, 1, 0⟩ 0.95)
          (Phys.qscale
            (Phys.qdot (Phys.resolveStaticVel ⟨1, -2, 3⟩ ⟨0, 1, 0⟩ 0.95) ⟨0, 1, 0⟩)
            ⟨0, 1, 0⟩) =
        Phys.qsub ⟨1, -2, 3⟩
          (Phys.qscale (Phys.qdot (⟨1, -2, 3⟩ : Vec3 ℚ) ⟨0, 1, 0⟩) ⟨0, 1, 0⟩)) :=
  ⟨⟨by norm_num [Phys.qdot], by norm_num [Phys.qdot]⟩,
    resolveStaticVel_reflection ⟨1, -2, 3⟩ ⟨0, 1, 0⟩ 0.95
      (by norm_num [Phys.qdot]) (by norm_num [Phys.qdot])⟩

/-! ## C9 — anticipation-point computation is skipped on degenerate input -/

/-- C9: when the ball's z-velocity magnitude is below `0.001`, or the
computed time-to-reach is non-positive, `calculateAnticipationPoint` returns
the AI state completely unchanged (in particular the stored anticipation
point is retained). -/
theorem calculateAnticipationPoint_skip (rand : ℚ) (ballPos ballVel : Vec3 ℚ)
    (s : AIM.AIS)
    (h : |ballVel.z| < 0.001 ∨
      (0.001 ≤ |ballVel.z| ∧ (s.paddle.z - 0.5 - ballPos.z) / ballVel.z ≤ 0)) :
    AIM.calculateAnticipationPoint rand ballPos ballVel s = s := by
  simp only [AIM.calculateAnticipationPoint]
  rcases h with h | ⟨h1, h2⟩
  · rw [if_pos h]
  · rw [if_neg (not_lt.mpr h1), if_pos h2]

/-- C9 witness: a ball with zero z-velocity leaves the AI state untouched. -/
theorem calculateAnticipationPoint_skip_witness :
    (|(⟨1, 1, 0⟩ : Vec3 ℚ).z| < 0.001 ∨
      (0.001 ≤ |(⟨1, 1, 0⟩ : Vec3 ℚ).z| ∧
        (sampleAI.paddle.z - 0.5 - (⟨0, 0, 3⟩ : Vec3 ℚ).z) / (⟨1, 1, 0⟩ : Vec3 ℚ).z ≤ 0)) ∧
    AIM.calculateAnticipationPoint 0.5 ⟨0, 0, 3⟩ ⟨1, 1, 0⟩ sampleAI = sampleAI :=
  ⟨Or.inl (by norm_num),
    calculateAnticipationPoint_skip 0.5 ⟨0, 0, 3⟩ ⟨1, 1, 0⟩ sampleAI
      (Or.inl (by norm_num))⟩

/-! ## C10 — setDifficulty on unrecognized / recognized keys -/

/-- C10: `setDifficulty` with an unrecognized key leaves the AI instance
completely unchanged; with a recognized key it replaces the difficulty tag
and both the active and the adaptive configuration with that key's preset. -/
theorem setDifficulty_characterization (d : String) (s : AIM.AIS) :
    (AIM.aiConfigGet d = none → AIM.setDifficulty d s = s) ∧
    (∀ c, AIM.aiConfigGet d = some c →
      AIM.setDifficulty d s =
        { s with difficulty := d, config := c, adaptiveConfig := c }) := by
  constructor
  · intro h; simp only [AIM.setDifficulty, h]
  · intro c h; simp only [AIM.setDifficulty, h]

/-- C10 witness: the unrecognized key leaves the sample AI untouched, the
recognized key installs the easy preset in both configuration slots. -/
theorem setDifficulty_characterization_witness :
    (AIM.aiConfigGet unknownKey = none ∧
      AIM.setDifficulty unknownKey sampleAI = sampleAI) ∧
    (AIM.aiConfigGet AIM.easyKey = some AIM.easyPreset ∧
      AIM.setDifficulty AIM.easyKey sampleAI =
        { sampleAI with difficulty := AIM.easyKey, config := AIM.easyPreset,
                        adaptiveConfig := AIM.easyPreset }) :=
  ⟨⟨rfl, (setDifficulty_characterization unknownKey sampleAI).1 rfl⟩,
    ⟨rfl,
      (setDifficulty_characterization AIM.easyKey sampleAI).2 AIM.easyPreset rfl⟩⟩

/-! ## C7 — direction of the adaptive adjustment -/

/-- The per-parameter adjustment equations of one lost and one won point in
adaptive mode (`r` abbreviates the adaptation rate read from the active
configuration, `c` the adaptive configuration before the event): losing a
point raises reaction time and error rate by `r` (clamped above at 1) and
lowers every other listed parameter by `r` (clamped below at 0.1); winning a
point is the exact inverse. -/
def adaptiveStepEq (s : AIM.AIS) : Prop :=
  ((AIM.onPlayerScored s).adaptiveConfig.reactionTime =
      min 1 (s.adaptiveConfig.reactionTime + s.config.adaptationRate.getD 0) ∧
    (AIM.onPlayerScored s).adaptiveConfig.errorRate =
      min 1 (s.adaptiveConfig.errorRate + s.config.adaptationRate.getD 0) ∧
    (AIM.onPlayerScored s).adaptiveConfig.movementSpeed =
      max 0.1 (s.adaptiveConfig.movementSpeed - s.config.adaptationRate.getD 0) ∧
    (AIM.onPlayerScored s).adaptiveConfig.accuracy =
      max 0.1 (s.adaptiveConfig.accuracy - s.config.adaptationRate.getD 0) ∧
    (AIM.onPlayerScored s).adaptiveConfig.prediction =
      max 0.1 (s.adaptiveConfig.prediction - s.config.adaptationRate.getD 0) ∧
    (AIM.onPlayerScored s).adaptiveConfig.returnSpeed =
      max 0.1 (s.adaptiveConfig.returnSpeed - s.config.adaptationRate.getD 0) ∧
    (AIM.onPlayerScored s).adaptiveConfig.spinRate =
      max 0.1 (s.adaptiveConfig.spinRate - s.config.adaptationRate.getD 0) ∧
    (AIM.onPlayerScored s).adaptiveConfig.recoverySpeed =
      max 0.1 (s.adaptiveConfig.recoverySpeed - s.config.adaptationRate.getD 0) ∧
    (AIM.onPlayerScored s).adaptiveConfig.aggression =
      max 0.1 (s.adaptiveConfig.aggression - s.config.adaptationRate.getD 0) ∧
    (AIM.onPlayerScored s).adaptiveConfig.consistency =
      max 0.1 (s.adaptiveConfig.consistency - s.config.adaptationRate.getD 0)) ∧
  ((AIM.onAIScored s).adaptiveConfig.reactionTime =
      max 0.1 (s.adaptiveConfig.reactionTime - s.config.adaptationRate.getD 0) ∧
    (AIM.onAIScored s).adaptiveConfig.errorRate =
      max 0.1 (s.adaptiveConfig.errorRate - s.config.adaptationRate.getD 0) ∧
    (AIM.onAIScored s).adaptiveConfig.movementSpeed =
      min 1 (s.adaptiveConfig.movementSpeed + s.config.adaptationRate.getD 0) ∧
    (AIM.onAIScored s).adaptiveConfig.accuracy =
      min 1 (s.adaptiveConfig.accuracy + s.config.adaptationRate.getD 0) ∧
    (AIM.onAIScored s).adaptiveConfig.prediction =
      min 1 (s.adaptiveConfig.prediction + s.config.adaptationRate.getD 0) ∧
    (AIM.onAIScored s).adaptiveConfig.returnSpeed =
      min 1 (s.adaptiveConfig.returnSpeed + s.config.adaptationRate.getD 0) ∧
    (AIM.onAIScored s).adaptiveConfig.spinRate =
      min 1 (s.adaptiveConfig.spinRate + s.config.adaptationRate.getD 0) ∧
    (AIM.onAIScored s).adaptiveConfig.recoverySpeed =
      min 1 (s.adaptiveConfig.recoverySpeed + s.config.adaptationRate.getD 0) ∧
    (AIM.onAIScored s).adaptiveConfig.aggression =
      min 1 (s.adaptiveConfig.aggression + s.config.adaptationRate.getD 0) ∧
    (AIM.onAIScored s).adaptiveConfig.consistency =
      min 1 (s.adaptiveConfig.consistency + s.config.adaptationRate.getD 0))

/-- C7: in adaptive mode, a lost point moves every listed parameter in the
easier direction (reaction time and error rate up, the rest down, each by the
adaptation rate up to the clamp) and a won point applies the exact inverse. -/
theorem adaptive_adjust_direction (s : AIM.AIS)
    (h : s.difficulty = AIM.adaptiveKey) : adaptiveStepEq s := by
  unfold adaptiveStepEq
  simp only [AIM.onPlayerScored, AIM.onAIScored, AIM.adjustDifficulty,
    AIM.changeState, h, ne_eq, not_true_eq_false, if_false, if_true,
    ite_true, ite_false, reduceIte]
  norm_num

/-- C7 witness: the adjustment equations at the adaptive preset. -/
theorem adaptive_adjust_direction_witness :
    sampleAdaptiveAI.difficulty = AIM.adaptiveKey ∧ adaptiveStepEq sampleAdaptiveAI :=
  ⟨rfl, adaptive_adjust_direction sampleAdaptiveAI rfl⟩

/-! ## C6 — adaptive parameters stay inside [0.1, 1] -/

/-- All parameters that `adjustDifficulty` touches lie in `[0.1, 1]`, and the
adaptation rate (when present) is nonnegative. -/
def configInBounds (c : AIM.AIConfig) : Prop :=
  (0.1 ≤ c.reactionTime ∧ c.reactionTime ≤ 1) ∧
  (0.1 ≤ c.movementSpeed ∧ c.movementSpeed ≤ 1) ∧
  (0.1 ≤ c.accuracy ∧ c.accuracy ≤ 1) ∧
  (0.1 ≤ c.prediction ∧ c.prediction ≤ 1) ∧
  (0.1 ≤ c.errorRate ∧ c.errorRate ≤ 1) ∧
  (0.1 ≤ c.returnHeight ∧ c.returnHeight ≤ 1) ∧
  (0.1 ≤ c.returnSpeed ∧ c.returnSpeed ≤ 1) ∧
  (0.1 ≤ c.spinRate ∧ c.spinRate ≤ 1) ∧
  (0.1 ≤ c.recoverySpeed ∧ c.recoverySpeed ≤ 1) ∧
  (0.1 ≤ c.aggression ∧ c.aggression ≤ 1) ∧
  (0.1 ≤ c.consistency ∧ c.consistency ≤ 1) ∧
  0 ≤ c.adaptationRate.getD 0

/-- A sequence of scoring events applied to the AI: `true` means the human
player won the point (`onPlayerScored`), `false` that the AI won it
(`onAIScored`). -/
def scoreEvents (es : List Bool) (s : AIM.AIS) : AIM.AIS :=
  es.foldl (fun s e => if e then AIM.onPlayerScored s else AIM.onAIScored s) s

/-- One `adjustDifficulty` call in adaptive mode keeps the adaptive
configuration inside the bounds and preserves the difficulty tag, provided
the active adaptation rate is nonnegative. -/
lemma adjustDifficulty_inBounds (b : Bool) (s : AIM.AIS)
    (hd : s.difficulty = AIM.adaptiveKey)
    (hb : configInBounds s.adaptiveConfig)
    (hr : 0 ≤ s.config.adaptationRate.getD 0) :
    configInBounds (AIM.adjustDifficulty b s).adaptiveConfig ∧
    (AIM.adjustDifficulty b s).difficulty = AIM.adaptiveKey ∧
    (AIM.adjustDifficulty b s).config = (AIM.adjustDifficulty b s).adaptiveConfig := by
  obtain ⟨h1, h2, h3, h4, h5, h6, h7, h8, h9, h10, h11, h12⟩ := hb
  unfold AIM.adjustDifficulty
  rw [if_neg (by simp [hd])]
  refine ⟨?_, hd, rfl⟩
  unfold configInBounds at *
  cases b <;>
    simp only [Bool.false_eq_true, if_false, if_true, ite_true, ite_false, reduceIte] <;>
    refine ⟨⟨?_, ?_⟩, ⟨?_, ?_⟩, ⟨?_, ?_⟩, ⟨?_, ?_⟩, ⟨?_, ?_⟩, ⟨?_, ?_⟩,
      ⟨?_, ?_⟩, ⟨?_, ?_⟩, ⟨?_, ?_⟩, ⟨?_, ?_⟩, ⟨?_, ?_⟩, ?_⟩ <;>
    first
      | exact le_max_left _ _
      | exact max_le (by norm_num) (by linarith [h1.2, h2.2, h3.2, h4.2, h5.2,
          h6.2, h7.2, h8.2, h9.2, h10.2, h11.2])
      | exact le_min (by norm_num) (by linarith [h1.1, h2.1, h3.1, h4.1, h5.1,
          h6.1, h7.1, h8.1, h9.1, h10.1, h11.1])
      | exact min_le_left _ _
      | exact h12

/-- `onPlayerScored` in adaptive mode preserves the bound invariant. -/
lemma onPlayerScored_inv (s : AIM.AIS)
    (hd : s.difficulty = AIM.adaptiveKey)
    (hb : configInBounds s.adaptiveConfig)
    (hr : 0 ≤ s.config.adaptationRate.getD 0) :
    (AIM.onPlayerScored s).difficulty = AIM.adaptiveKey ∧
    configInBounds (AIM.onPlayerScored s).adaptiveConfig ∧
    0 ≤ (AIM.onPlayerScored s).config.adaptationRate.getD 0 := by
  have h := adjustDifficulty_inBounds true
    { s with consecutivePointsLost := s.consecutivePointsLost + 1,
             consecutivePointsWon := 0 } hd hb hr
  have hrate : 0 ≤ (AIM.adjustDifficulty true
      { s with consecutivePointsLost := s.consecutivePointsLost + 1,
               consecutivePointsWon := 0 }).config.adaptationRate.getD 0 := by
    rw [h.2.2]
    exact h.1.2.2.2.2.2.2.2.2.2.2.2
  simp only [AIM.onPlayerScored]
  rw [if_pos hd]
  exact ⟨h.2.1, h.1, hrate⟩

/-- `onAIScored` in adaptive mode preserves the bound invariant. -/
lemma onAIScored_inv (s : AIM.AIS)
    (hd : s.difficulty = AIM.adaptiveKey)
    (hb : configInBounds s.adaptiveConfig)
    (hr : 0 ≤ s.config.adaptationRate.getD 0) :
    (AIM.onAIScored s).difficulty = AIM.adaptiveKey ∧
    configInBounds (AIM.onAIScored s).adaptiveConfig ∧
    0 ≤ (AIM.onAIScored s).config.adaptationRate.getD 0 := by
  have h := adjustDifficulty_inBounds false
    { s with consecutivePointsWon := s.consecutivePointsWon + 1,
             consecutivePointsLost := 0 } hd hb hr
  have hrate : 0 ≤ (AIM.adjustDifficulty false
      { s with consecutivePointsWon := s.consecutivePointsWon + 1,
               consecutivePointsLost := 0 }).config.adaptationRate.getD 0 := by
    rw [h.2.2]
    exact h.1.2.2.2.2.2.2.2.2.2.2.2
  simp only [AIM.onAIScored]
  rw [if_pos hd]
  exact ⟨h.2.1, h.1, hrate⟩

/-- C6: from any adaptive-mode AI state whose adaptive configuration lies in
`[0.1, 1]` (with nonnegative adaptation rates), every sequence of
point-won/point-lost adjustments leaves every tunable adaptive parameter in
`[0.1, 1]`. -/
theorem adaptive_bounds (es : List Bool) (s : AIM.AIS)
    (hd : s.difficulty = AIM.adaptiveKey)
    (hb : configInBounds s.adaptiveConfig)
    (hr : 0 ≤ s.config.adaptationRate.getD 0) :
    configInBounds ((scoreEvents es s).adaptiveConfig) := by
  induction es generalizing s with
  | nil => exact hb
  | cons e es ih =>
    have hrun : scoreEvents (e :: es) s =
        scoreEvents es (if e then AIM.onPlayerScored s else AIM.onAIScored s) := rfl
    rw [hrun]
    cases e with
    | true =>
      rw [if_pos rfl]
      have h := onPlayerScored_inv s hd hb hr
      exact ih _ h.1 h.2.1 h.2.2
    | false =>
      rw [if_neg (by simp)]
      have h := onAIScored_inv s hd hb hr
      exact ih _ h.1 h.2.1 h.2.2

/-- C6 witness: three consecutive lost points from the adaptive preset keep
every parameter inside `[0.1, 1]`. -/
theorem adaptive_bounds_witness :
    (sampleAdaptiveAI.difficulty = AIM.adaptiveKey ∧
      configInBounds sampleAdaptiveAI.adaptiveConfig ∧
      0 ≤ sampleAdaptiveAI.config.adaptationRate.getD 0) ∧
    configInBounds ((scoreEvents [true, true, true] sampleAdaptiveAI).adaptiveConfig) := by
  have hb : configInBounds sampleAdaptiveAI.adaptiveConfig := by
    have h : sampleAdaptiveAI.adaptiveConfig = AIM.adaptivePreset := rfl
    rw [configInBounds, h]
    norm_num [AIM.adaptivePreset]
  have hr : 0 ≤ sampleAdaptiveAI.config.adaptationRate.getD 0 := by
    have h : sampleAdaptiveAI.config = AIM.adaptivePreset := rfl
    rw [h]
    norm_num [AIM.adaptivePreset]
  exact ⟨⟨rfl, hb, hr⟩, adaptive_bounds [true, true, true] sampleAdaptiveAI rfl hb hr⟩

/-! ## C5 — reaction gating of the AI state machine -/

/-- One simulation tick as seen by `AI.update`: the `Math.random()` sample,
the frame time, and the ball state read from the simulation. -/
structure Tick where
  rand : ℚ
  dt : ℚ
  ballPos : Vec3 ℚ
  ballVel : Vec3 ℚ
  deriving DecidableEq

/-- Iterated `AI.update` over a list of ticks. -/
def run (s : AIM.AIS) (ts : List Tick) : AIM.AIS :=
  ts.foldl (fun s t => AIM.update t.rand t.dt t.ballPos t.ballVel s) s

/-- Total frame time of a list of ticks. -/
def sumDt (ts : List Tick) : ℚ := (ts.map Tick.dt).sum

lemma run_cons (s : AIM.AIS) (t : Tick) (ts : List Tick) :
    run s (t :: ts) = run (AIM.update t.rand t.dt t.ballPos t.ballVel s) ts := rfl

lemma run_append (s : AIM.AIS) (l1 l2 : List Tick) :
    run s (l1 ++ l2) = run (run s l1) l2 := List.foldl_append _ _ _ _

/-- `makeDecisions` only moves the base position. -/
lemma makeDecisions_fields (s : AIM.AIS) :
    (AIM.makeDecisions s).state = s.state ∧
    (AIM.makeDecisions s).reactionTimer = s.reactionTimer ∧
    (AIM.makeDecisions s).config = s.config := by
  refine ⟨?_, ?_, ?_⟩ <;> simp only [AIM.makeDecisions] <;> split_ifs <;> rfl

/-- The decision-cadence tail touches neither the behavior state, nor the
reaction timer, nor the configuration. -/
lemma decisionPhase_fields (dt : ℚ) (s : AIM.AIS) :
    (AIM.decisionPhase dt s).state = s.state ∧
    (AIM.decisionPhase dt s).reactionTimer = s.reactionTimer ∧
    (AIM.decisionPhase dt s).config = s.config := by
  refine ⟨?_, ?_, ?_⟩ <;> simp only [AIM.decisionPhase] <;> split_ifs <;>
    first
      | rfl
      | exact (makeDecisions_fields _).1
      | exact (makeDecisions_fields _).2.1
      | exact (makeDecisions_fields _).2.2

/-- `moveTowardsBasePosition` only moves the paddle. -/
lemma moveTowardsBasePosition_fields (dt : ℚ) (s : AIM.AIS) :
    (AIM.moveTowardsBasePosition dt s).1.state = s.state ∧
    (AIM.moveTowardsBasePosition dt s).1.reactionTimer = s.reactionTimer ∧
    (AIM.moveTowardsBasePosition dt s).1.config = s.config := by
  refine ⟨?_, ?_, ?_⟩ <;> simp only [AIM.moveTowardsBasePosition] <;>
    split_ifs <;> rfl

/-- `calculateAnticipationPoint` touches at most the anticipation point. -/
lemma calculateAnticipationPoint_fields (rand : ℚ) (p v : Vec3 ℚ) (s : AIM.AIS) :
    (AIM.calculateAnticipationPoint rand p v s).state = s.state ∧
    (AIM.calculateAnticipationPoint rand p v s).reactionTimer = s.reactionTimer ∧
    (AIM.calculateAnticipationPoint rand p v s).config = s.config := by
  refine ⟨?_, ?_, ?_⟩ <;> simp only [AIM.calculateAnticipationPoint] <;>
    split_ifs <;> rfl

/-- An `IDLE` tick with the ball approaching enters `PREPARING` with the
reaction timer cleared. -/
lemma update_idle_step (r dt : ℚ) (p v : Vec3 ℚ) (s : AIM.AIS)
    (hs : s.state = AIM.AIStateTag.idle) (hv : 0 < v.z) :
    (AIM.update r dt p v s).state = AIM.AIStateTag.preparing ∧
    (AIM.update r dt p v s).reactionTimer = 0 ∧
    (AIM.update r dt p v s).config = s.config := by
  have h1 : AIM.update r dt p v s =
      AIM.decisionPhase dt (AIM.executeIdleState dt v
        { s with stateTime := s.stateTime + dt, lastKnownBallPosition := p }) := by
    simp only [AIM.update, hs]
  have h2 : AIM.executeIdleState dt v
      { s with stateTime := s.stateTime + dt, lastKnownBallPosition := p } =
      { AIM.changeState AIM.AIStateTag.preparing
          { s with stateTime := s.stateTime + dt, lastKnownBallPosition := p }
        with reactionTimer := 0 } := by
    simp only [AIM.executeIdleState]
    rw [if_pos hv]
  rw [h1, h2]
  exact ⟨(decisionPhase_fields _ _).1, (decisionPhase_fields _ _).2.1,
    (decisionPhase_fields _ _).2.2⟩

/-- A `PREPARING` tick with the ball approaching and the accumulated timer
still below the reaction time stays in `PREPARING`, accumulating the timer. -/
lemma update_preparing_stay (r dt : ℚ) (p v : Vec3 ℚ) (s : AIM.AIS)
    (hs : s.state = AIM.AIStateTag.preparing) (hv : 0 < v.z)
    (hlt : s.reactionTimer + dt < s.config.reactionTime) :
    (AIM.update r dt p v s).state = AIM.AIStateTag.preparing ∧
    (AIM.update r dt p v s).reactionTimer = s.reactionTimer + dt ∧
    (AIM.update r dt p v s).config = s.config := by
  have h1 : AIM.update r dt p v s =
      AIM.decisionPhase dt (AIM.executePreparingState r dt p v
        { s with stateTime := s.stateTime + dt, lastKnownBallPosition := p }) := by
    simp only [AIM.update, hs]
  have h2 : AIM.executePreparingState r dt p v
      { s with stateTime := s.stateTime + dt, lastKnownBallPosition := p } =
      (AIM.moveTowardsBasePosition dt
        { s with stateTime := s.stateTime + dt, lastKnownBallPosition := p,
                 reactionTimer := s.reactionTimer + dt }).1 := by
    simp only [AIM.executePreparingState]
    rw [if_neg (not_not_intro hv), if_neg (not_le.mpr hlt)]
  rw [h1, h2]
  refine ⟨?_, ?_, ?_⟩
  · rw [(decisionPhase_fields _ _).1, (moveTowardsBasePosition_fields _ _).1, hs]
  · rw [(decisionPhase_fields _ _).2.1, (moveTowardsBasePosition_fields _ _).2.1]
  · rw [(decisionPhase_fields _ _).2.2, (moveTowardsBasePosition_fields _ _).2.2]

/-- A `PREPARING` tick whose accumulated timer reaches the reaction time
transitions to `TRACKING`. -/
lemma update_preparing_fire (r dt : ℚ) (p v : Vec3 ℚ) (s : AIM.AIS)
    (hs : s.state = AIM.AIStateTag.preparing) (hv : 0 < v.z)
    (hge : s.config.reactionTime ≤ s.reactionTimer + dt) :
    (AIM.update r dt p v s).state = AIM.AIStateTag.tracking ∧
    (AIM.update r dt p v s).config = s.config := by
  have h1 : AIM.update r dt p v s =
      AIM.decisionPhase dt (AIM.executePreparingState r dt p v
        { s with stateTime := s.stateTime + dt, lastKnownBallPosition := p }) := by
    simp only [AIM.update, hs]
  have h2 : AIM.executePreparingState r dt p v
      { s with stateTime := s.stateTime + dt, lastKnownBallPosition := p } =
      AIM.calculateAnticipationPoint r p v
        (AIM.changeState AIM.AIStateTag.tracking
          { s with stateTime := s.stateTime + dt, lastKnownBallPosition := p,
                   reactionTimer := s.reactionTimer + dt }) := by
    simp only [AIM.executePreparingState]
    rw [if_neg (not_not_intro hv), if_pos hge]
  rw [h1, h2]
  constructor
  · rw [(decisionPhase_fields _ _).1, (calculateAnticipationPoint_fields _ _ _ _).1]
    rfl
  · rw [(decisionPhase_fields _ _).2.2, (calculateAnticipationPoint_fields _ _ _ _).2.2]
    rfl

/-- While the ball keeps approaching and the accumulated reaction timer stays
below the configured reaction time, a `PREPARING` AI remains in `PREPARING`,
its timer tracking the elapsed time exactly. -/
lemma run_preparing (ts : List Tick) : ∀ s : AIM.AIS,
    s.state = AIM.AIStateTag.preparing →
    (∀ t ∈ ts, 0 < t.ballVel.z) →
    (∀ t ∈ ts, 0 ≤ t.dt) →
    s.reactionTimer + sumDt ts < s.config.reactionTime →
    (run s ts).state = AIM.AIStateTag.preparing ∧
    (run s ts).reactionTimer = s.reactionTimer + sumDt ts ∧
    (run s ts).config = s.config := by
  induction ts with
  | nil =>
    intro s hs _ _ _
    exact ⟨hs, by simp [run, sumDt], rfl⟩
  | cons t ts ih =>
    intro s hs hv hd hlt
    have hv0 : 0 < t.ballVel.z := hv t (List.mem_cons_self t ts)
    have hsum0 : 0 ≤ sumDt ts := by
      apply List.sum_nonneg
      intro q hq
      obtain ⟨u, hu, rfl⟩ := List.mem_map.mp hq
      exact hd u (List.mem_cons_of_mem t hu)
    have hsplit : sumDt (t :: ts) = t.dt + sumDt ts := by
      simp [sumDt]
    have hlt1 : s.reactionTimer + t.dt < s.config.reactionTime := by
      rw [hsplit] at hlt; linarith
    obtain ⟨h1, h2, h3⟩ := update_preparing_stay t.rand t.dt t.ballPos t.ballVel s hs hv0 hlt1
    rw [run_cons]
    have := ih (AIM.update t.rand t.dt t.ballPos t.ballVel s) h1
      (fun u hu => hv u (List.mem_cons_of_mem t hu))
      (fun u hu => hd u (List.mem_cons_of_mem t hu))
      (by rw [h2, h3]; rw [hsplit] at hlt; linarith)
    refine ⟨this.1, ?_, by rw [this.2.2, h3]⟩
    rw [this.2.1, h2, hsplit]
    ring

/-- C5: starting from `IDLE` with the ball approaching at every tick (and
nonnegative frame times), the first tick moves the AI to `PREPARING`; it is
still in `PREPARING` after any further ticks whose total elapsed time is
below the configured reaction time, and it is in `TRACKING` right after the
tick at which the accumulated elapsed time first reaches the reaction time. -/
theorem ai_reaction_gating (s : AIM.AIS) (hs : s.state = AIM.AIStateTag.idle)
    (t0 : Tick) (ts : List Tick)
    (hv : ∀ t ∈ t0 :: ts, 0 < t.ballVel.z)
    (hd : ∀ t ∈ t0 :: ts, 0 ≤ t.dt)
    (k : ℕ) (hk : k ≤ ts.length) :
    (sumDt (ts.take k) < s.config.reactionTime →
      (run s (t0 :: ts.take k)).state = AIM.AIStateTag.preparing) ∧
    (∀ j : ℕ, k = j + 1 →
      sumDt (ts.take j) < s.config.reactionTime →
      s.config.reactionTime ≤ sumDt (ts.take k) →
      (run s (t0 :: ts.take k)).state = AIM.AIStateTag.tracking) := by
  have hv0 : 0 < t0.ballVel.z := hv t0 (List.mem_cons_self t0 ts)
  obtain ⟨hp, hr0, hc⟩ := update_idle_step t0.rand t0.dt t0.ballPos t0.ballVel s hs hv0
  set s1 := AIM.update t0.rand t0.dt t0.ballPos t0.ballVel s with hs1
  have hmem : ∀ n, ∀ t ∈ ts.take n, t ∈ t0 :: ts := fun n t ht =>
    List.mem_cons_of_mem t0 (List.mem_of_mem_take ht)
  constructor
  · intro hlt
    rw [run_cons, ← hs1]
    have h := run_preparing (ts.take k) s1 hp
      (fun t ht => hv t (hmem k t ht)) (fun t ht => hd t (hmem k t ht))
      (by rw [hr0, hc, zero_add]; exact hlt)
    exact h.1
  · intro j hj hltj hgek
    subst hj
    have hjlt : j < ts.length := hk
    have htake : ts.take (j + 1) = ts.take j ++ [ts.get ⟨j, hjlt⟩] := by
      rw [List.take_succ, List.getElem?_eq_getElem hjlt]
      rfl
    have hprev := run_preparing (ts.take j) s1 hp
      (fun t ht => hv t (hmem j t ht)) (fun t ht => hd t (hmem j t ht))
      (by rw [hr0, hc, zero_add]; exact hltj)
    have hsumsplit : sumDt (ts.take (j + 1)) =
        sumDt (ts.take j) + (ts.get ⟨j, hjlt⟩).dt := by
      rw [htake, sumDt, sumDt, List.map_append, List.sum_append]
      simp
    have hfire := update_preparing_fire (ts.get ⟨j, hjlt⟩).rand (ts.get ⟨j, hjlt⟩).dt
      (ts.get ⟨j, hjlt⟩).ballPos (ts.get ⟨j, hjlt⟩).ballVel (run s1 (ts.take j))
      hprev.1
      (hv (ts.get ⟨j, hjlt⟩)
        (List.mem_cons_of_mem t0 (List.get_mem ts j hjlt)))
      (by
        rw [hprev.2.1, hprev.2.2, hr0, hc, zero_add]
        rw [hsumsplit] at hgek
        linarith)
    rw [run_cons, ← hs1, htake, run_append]
    exact hfire.1

/-- One 0.1-second tick of the C5 scenario: the ball keeps approaching the
AI side (positive z-velocity) while still far from the AI paddle plane. -/
def gatingTick : Tick := ⟨0.5, 0.1, ⟨0, 0, 3⟩, ⟨0, 0, 1⟩⟩

/-- The ticks following the tick at t = 0 in the C5 scenario. -/
def gatingTicks : List Tick :=
  [gatingTick, gatingTick, gatingTick, gatingTick, gatingTick, gatingTick]

/-- C5 witness: with the medium reaction time 0.5 s and 0.1 s frames, the AI
(approached from t = 0) is still in `PREPARING` after the tick at t = 0.4 s
and in `TRACKING` right after the tick at t = 0.5 s, hence by t = 0.6 s. -/
theorem ai_reaction_gating_witness :
    (run sampleAI (gatingTick :: gatingTicks.take 4)).state =
        AIM.AIStateTag.preparing ∧
    (run sampleAI (gatingTick :: gatingTicks.take 5)).state =
        AIM.AIStateTag.tracking := by
  have hall : ∀ t ∈ gatingTick :: gatingTicks, t = gatingTick := by
    intro t ht
    simpa [gatingTicks] using ht
  have hv : ∀ t ∈ gatingTick :: gatingTicks, 0 < t.ballVel.z := by
    intro t ht
    rw [hall t ht]
    norm_num [gatingTick]
  have hd : ∀ t ∈ gatingTick :: gatingTicks, 0 ≤ t.dt := by
    intro t ht
    rw [hall t ht]
    norm_num [gatingTick]
  have hRT : sampleAI.config.reactionTime = 0.5 := rfl
  have ht4 : gatingTicks.take 4 = [gatingTick, gatingTick, gatingTick, gatingTick] := rfl
  have ht5 : gatingTicks.take 5 =
      [gatingTick, gatingTick, gatingTick, gatingTick, gatingTick] := rfl
  have hsum4 : sumDt (gatingTicks.take 4) < sampleAI.config.reactionTime := by
    rw [ht4, hRT]
    norm_num [sumDt, gatingTick]
  have hsum5 : sampleAI.config.reactionTime ≤ sumDt (gatingTicks.take 5) := by
    rw [ht5, hRT]
    norm_num [sumDt, gatingTick]
  constructor
  · exact (ai_reaction_gating sampleAI rfl gatingTick gatingTicks hv hd 4
      (by norm_num [gatingTicks])).1 hsum4
  · exact (ai_reaction_gating sampleAI rfl gatingTick gatingTicks hv hd 5
      (by norm_num [gatingTicks])).2 4 rfl hsum4 hsum5

/-! ## Helper lemmas for the game-script scoring model -/

noncomputable section

lemma tableBounceStep_of_up (s : Game.GameState) (hdy : 0 ≤ s.ballDir.y) :
    Game.tableBounceStep s = s := by
  simp only [Game.tableBounceStep]
  rw [if_neg]
  rintro ⟨-, h2⟩
  exact absurd h2 (not_lt.mpr hdy)

lemma sideWallStep_fields (s : Game.GameState) :
    (Game.sideWallStep s).ballPos = s.ballPos ∧
    (Game.sideWallStep s).playerScore = s.playerScore ∧
    (Game.sideWallStep s).opponentScore = s.opponentScore ∧
    (Game.sideWallStep s).lastHitByPlayer = s.lastHitByPlayer ∧
    (Game.sideWallStep s).isGameOver = s.isGameOver := by
  refine ⟨?_, ?_, ?_, ?_, ?_⟩ <;> simp only [Game.sideWallStep] <;>
    split_ifs <;> rfl

lemma sideWallStep_of_in (s : Game.GameState) (hx : |s.ballPos.x| ≤ 2) :
    Game.sideWallStep s = s := by
  simp only [Game.sideWallStep]
  rw [if_neg (not_lt.mpr hx)]

lemma scoreOrReset_scores (r1 r2 r3 : ℝ) (s : Game.GameState) :
    (Game.scoreOrReset r1 r2 r3 s).playerScore = s.playerScore ∧
    (Game.scoreOrReset r1 r2 r3 s).opponentScore = s.opponentScore := by
  refine ⟨?_, ?_⟩ <;>
    simp only [Game.scoreOrReset, Game.gameOverStep, Game.resetBall] <;>
    split_ifs <;> rfl

lemma resetBall_fields (r1 r2 r3 : ℝ) (s : Game.GameState) :
    (Game.resetBall r1 r2 r3 s).playerScore = s.playerScore ∧
    (Game.resetBall r1 r2 r3 s).opponentScore = s.opponentScore ∧
    (Game.resetBall r1 r2 r3 s).isGameOver = s.isGameOver ∧
    (Game.resetBall r1 r2 r3 s).ballPos =
      (if s.lastHitByPlayer then (⟨0, 0.5, -3⟩ : Vec3 ℝ) else ⟨0, 0.5, 3⟩) := by
  refine ⟨?_, ?_, ?_, ?_⟩ <;> simp only [Game.resetBall] <;> split_ifs <;> rfl

/-! ## C1 — which side an out-of-bounds landing awards -/

/-- C1 counterexample state: the ball reaches table height (`y = -0.5`)
outside the table footprint (`z = 4.5`), moving upward so the bounce branch
does not interfere, with the player recorded as last hitter. -/
def c1State : Game.GameState :=
  { ballPos := ⟨0, -0.5, 4.5⟩, ballDir := ⟨0, 0.01, 0.5⟩,
    playerScore := 0, opponentScore := 0, isGameStarted := true,
    isGameOver := false, lastHitByPlayer := true }

/-- C1 counterexample: on an out-of-bounds landing with `lastHitByPlayer`
set, the code increments the **player's** score — the point goes to the side
that did last hit the ball, not to its opponent as the claim states. -/
theorem oob_awards_last_hitter_counterexample :
    c1State.lastHitByPlayer = true ∧
    (Game.checkTableCollision 0.5 0.5 0.5 c1State).playerScore = 1 ∧
    (Game.checkTableCollision 0.5 0.5 0.5 c1State).opponentScore = 0 := by
  refine ⟨rfl, ?_, ?_⟩ <;>
    simp only [Game.checkTableCollision, Game.tableBounceStep, Game.sideWallStep,
      Game.scoringStep, Game.scoreOrReset, Game.resetBall, Game.gameOverStep,
      c1State] <;>
    norm_num [abs]

/-- C1 amended: for every out-of-bounds landing (ball at table height outside
the footprint, not intercepted by the bounce branch), the point is awarded to
the side recorded in `lastHitByPlayer` — the last hitter itself. -/
theorem oob_awards_last_hitter (r1 r2 r3 : ℝ) (s : Game.GameState)
    (hy1 : s.ballPos.y < -0.4) (hy2 : -0.6 < s.ballPos.y)
    (hdy : 0 ≤ s.ballDir.y)
    (hxz : 2 < |s.ballPos.x| ∨ 4 < |s.ballPos.z|) :
    (s.lastHitByPlayer = true →
      (Game.checkTableCollision r1 r2 r3 s).playerScore = s.playerScore + 1 ∧
      (Game.checkTableCollision r1 r2 r3 s).opponentScore = s.opponentScore) ∧
    (s.lastHitByPlayer = false →
      (Game.checkTableCollision r1 r2 r3 s).opponentScore = s.opponentScore + 1 ∧
      (Game.checkTableCollision r1 r2 r3 s).playerScore = s.playerScore) := by
  obtain ⟨hpos, hps, hos, hlh, hgo⟩ := sideWallStep_fields s
  have hct : Game.checkTableCollision r1 r2 r3 s =
      Game.scoringStep r1 r2 r3 (Game.sideWallStep s) := by
    rw [Game.checkTableCollision, tableBounceStep_of_up s hdy]
  have hcond : ((Game.sideWallStep s).ballPos.y < -0.4 ∧
      -0.6 < (Game.sideWallStep s).ballPos.y) ∧
      (2 < |(Game.sideWallStep s).ballPos.x| ∨
        4 < |(Game.sideWallStep s).ballPos.z|) := by
    rw [hpos]
    exact ⟨⟨hy1, hy2⟩, hxz⟩
  constructor
  · intro hl
    have hl2 : (Game.sideWallStep s).lastHitByPlayer = true := by rw [hlh, hl]
    rw [hct]
    simp only [Game.scoringStep]
    rw [if_pos hcond, if_pos (by rw [hl2])]
    obtain ⟨hp, ho⟩ := scoreOrReset_scores r1 r2 r3
      { Game.sideWallStep s with playerScore := (Game.sideWallStep s).playerScore + 1 }
    constructor
    · rw [hp]; simp only [hps]
    · rw [ho]; simp only [hos]
  · intro hl
    have hl2 : ¬ (Game.sideWallStep s).lastHitByPlayer = true := by
      rw [hlh, hl]; exact Bool.false_ne_true
    rw [hct]
    simp only [Game.scoringStep]
    rw [if_pos hcond, if_neg hl2]
    obtain ⟨hp, ho⟩ := scoreOrReset_scores r1 r2 r3
      { Game.sideWallStep s with opponentScore := (Game.sideWallStep s).opponentScore + 1 }
    constructor
    · rw [ho]; simp only [hos]
    · rw [hp]; simp only [hps]

/-- C1 witness for the amended claim: both attribution directions at
concrete out-of-bounds states. -/
theorem oob_awards_last_hitter_witness :
    (c1State.ballPos.y < -0.4 ∧ -0.6 < c1State.ballPos.y ∧
      0 ≤ c1State.ballDir.y ∧ (2 < |c1State.ballPos.x| ∨ 4 < |c1State.ballPos.z|)) ∧
    ((Game.checkTableCollision 0.3 0.3 0.3 c1State).playerScore =
        c1State.playerScore + 1 ∧
      (Game.checkTableCollision 0.3 0.3 0.3 c1State).opponentScore =
        c1State.opponentScore) := by
  have h1 : c1State.ballPos.y < -0.4 := by norm_num [c1State]
  have h2 : -0.6 < c1State.ballPos.y := by norm_num [c1State]
  have h3 : 0 ≤ c1State.ballDir.y := by norm_num [c1State]
  have h4 : 2 < |c1State.ballPos.x| ∨ 4 < |c1State.ballPos.z| := by
    right; norm_num [c1State, abs]
  exact ⟨⟨h1, h2, h3, h4⟩,
    (oob_awards_last_hitter 0.3 0.3 0.3 c1State h1 h2 h3 h4).1 rfl⟩

/-! ## C2 — immediacy of the game-over transition -/

/-- C2 counterexample state: the player has 10 points and the ball crosses
the back wall behind the AI (`z < -7.5`). -/
def c2State : Game.GameState :=
  { ballPos := ⟨0, 0, -7.6⟩, ballDir := ⟨0, 0, -0.1⟩,
    playerScore := 10, opponentScore := 3, isGameStarted := true,
    isGameOver := false, lastHitByPlayer := true }

/-- C2 counterexample: the back-wall fallback raises the player's score to
the target 11, yet the match is not put into game-over and the ball is reset
for a fresh rally. -/
theorem back_wall_no_game_over_counterexample :
    c2State.playerScore = 10 ∧
    (Game.checkTableCollision 0.5 0.5 0.5 c2State).playerScore = 11 ∧
    (Game.checkTableCollision 0.5 0.5 0.5 c2State).isGameOver = false ∧
    (Game.checkTableCollision 0.5 0.5 0.5 c2State).ballPos = ⟨0, 0.5, -3⟩ := by
  refine ⟨rfl, ?_, ?_, ?_⟩ <;>
    simp only [Game.checkTableCollision, Game.tableBounceStep, Game.sideWallStep,
      Game.scoringStep, Game.scoreOrReset, Game.resetBall, Game.gameOverStep,
      c2State] <;>
    norm_num [abs]

/-- C2 amended: on the out-of-bounds and net-fault scoring paths the match
does transition to game-over as soon as the incremented score reaches 11, but
the two back-wall fallback paths increment a score and restart the rally with
no game-over check at all. -/
theorem game_over_check_coverage (r1 r2 r3 : ℝ) (s : Game.GameState) :
    ((s.ballPos.y < -0.4 ∧ -0.6 < s.ballPos.y) ∧ 0 ≤ s.ballDir.y ∧
      (2 < |s.ballPos.x| ∨ 4 < |s.ballPos.z|) ∧
      10 ≤ (if s.lastHitByPlayer then s.playerScore else s.opponentScore) →
      (Game.checkTableCollision r1 r2 r3 s).isGameOver = true) ∧
    (-0.4 ≤ s.ballPos.y ∧ |s.ballPos.z| < 0.1 ∧ s.ballPos.y < 0 ∧
      10 ≤ (if s.lastHitByPlayer then s.opponentScore else s.playerScore) →
      (Game.checkTableCollision r1 r2 r3 s).isGameOver = true) ∧
    (-0.4 ≤ s.ballPos.y ∧ s.ballPos.z < -7.5 →
      (Game.checkTableCollision r1 r2 r3 s).playerScore = s.playerScore + 1 ∧
      (Game.checkTableCollision r1 r2 r3 s).isGameOver = s.isGameOver ∧
      (Game.checkTableCollision r1 r2 r3 s).ballPos =
        (if s.lastHitByPlayer then (⟨0, 0.5, -3⟩ : Vec3 ℝ) else ⟨0, 0.5, 3⟩)) ∧
    (-0.4 ≤ s.ballPos.y ∧ 7.5 < s.ballPos.z →
      (Game.checkTableCollision r1 r2 r3 s).opponentScore = s.opponentScore + 1 ∧
      (Game.checkTableCollision r1 r2 r3 s).isGameOver = s.isGameOver ∧
      (Game.checkTableCollision r1 r2 r3 s).ballPos =
        (if s.lastHitByPlayer then (⟨0, 0.5, -3⟩ : Vec3 ℝ) else ⟨0, 0.5, 3⟩)) := by
  obtain ⟨hpos, hps, hos, hlh, hgo⟩ := sideWallStep_fields s
  refine ⟨?_, ?_, ?_, ?_⟩
  · rintro ⟨⟨hy1, hy2⟩, hdy, hxz, hsc⟩
    have hct : Game.checkTableCollision r1 r2 r3 s =
        Game.scoringStep r1 r2 r3 (Game.sideWallStep s) := by
      rw [Game.checkTableCollision, tableBounceStep_of_up s hdy]
    have hcond : ((Game.sideWallStep s).ballPos.y < -0.4 ∧
        -0.6 < (Game.sideWallStep s).ballPos.y) ∧
        (2 < |(Game.sideWallStep s).ballPos.x| ∨
          4 < |(Game.sideWallStep s).ballPos.z|) := by
      rw [hpos]; exact ⟨⟨hy1, hy2⟩, hxz⟩
    rw [hct]
    simp only [Game.scoringStep]
    rw [if_pos hcond]
    by_cases hl : s.lastHitByPlayer
    · rw [if_pos (by rw [hlh]; exact hl)]
      simp only [Game.scoreOrReset]
      rw [if_pos (Or.inl (by simp only [hps]; rw [if_pos hl] at hsc; omega))]
      rfl
    · rw [if_neg (by rw [hlh]; exact hl)]
      simp only [Game.scoreOrReset]
      rw [if_pos (Or.inr (by simp only [hos]; rw [if_neg hl] at hsc; omega))]
      rfl
  · rintro ⟨hy, hz, hy0, hsc⟩
    have hdy' : Game.tableBounceStep s = s := by
      simp only [Game.tableBounceStep]
      rw [if_neg]
      rintro ⟨h1, -⟩
      exact absurd hy (not_le.mpr h1)
    have hct : Game.checkTableCollision r1 r2 r3 s =
        Game.scoringStep r1 r2 r3 (Game.sideWallStep s) := by
      rw [Game.checkTableCollision, hdy']
    have habs : -0.1 < s.ballPos.z ∧ s.ballPos.z < 0.1 := abs_lt.mp hz
    rw [hct]
    simp only [Game.scoringStep]
    rw [if_neg (by rw [hpos]; rintro ⟨⟨h1, -⟩, -⟩; exact absurd hy (not_le.mpr h1))]
    rw [if_neg (by rw [hpos]; intro h1; linarith [habs.1])]
    rw [if_neg (by rw [hpos]; intro h1; linarith [habs.2])]
    rw [if_pos (by rw [hpos]; exact ⟨hz, by linarith⟩)]
    rw [if_pos (by rw [hpos]; exact hy0)]
    by_cases hl : s.lastHitByPlayer
    · rw [if_pos (by rw [hlh]; exact hl)]
      simp only [Game.scoreOrReset]
      rw [if_pos (Or.inr (by simp only [hos]; rw [if_pos hl] at hsc; omega))]
      rfl
    · rw [if_neg (by rw [hlh]; exact hl)]
      simp only [Game.scoreOrReset]
      rw [if_pos (Or.inl (by simp only [hps]; rw [if_neg hl] at hsc; omega))]
      rfl
  · rintro ⟨hy, hzl⟩
    have hdy' : Game.tableBounceStep s = s := by
      simp only [Game.tableBounceStep]
      rw [if_neg]
      rintro ⟨h1, -⟩
      exact absurd hy (not_le.mpr h1)
    have hct : Game.checkTableCollision r1 r2 r3 s =
        Game.scoringStep r1 r2 r3 (Game.sideWallStep s) := by
      rw [Game.checkTableCollision, hdy']
    rw [hct]
    simp only [Game.scoringStep]
    rw [if_neg (by rw [hpos]; rintro ⟨⟨h1, -⟩, -⟩; exact absurd hy (not_le.mpr h1))]
    rw [if_pos (by rw [hpos]; exact hzl)]
    obtain ⟨hrp, hro, hrg, hrb⟩ := resetBall_fields r1 r2 r3
      { Game.sideWallStep s with playerScore := (Game.sideWallStep s).playerScore + 1 }
    refine ⟨?_, ?_, ?_⟩
    · rw [hrp]; simp only [hps]
    · rw [hrg]; simp only [hgo]
    · rw [hrb]; simp only [hlh]
  · rintro ⟨hy, hzg⟩
    have hdy' : Game.tableBounceStep s = s := by
      simp only [Game.tableBounceStep]
      rw [if_neg]
      rintro ⟨h1, -⟩
      exact absurd hy (not_le.mpr h1)
    have hct : Game.checkTableCollision r1 r2 r3 s =
        Game.scoringStep r1 r2 r3 (Game.sideWallStep s) := by
      rw [Game.checkTableCollision, hdy']
    rw [hct]
    simp only [Game.scoringStep]
    rw [if_neg (by rw [hpos]; rintro ⟨⟨h1, -⟩, -⟩; exact absurd hy (not_le.mpr h1))]
    rw [if_neg (by rw [hpos]; intro h1; linarith)]
    rw [if_pos (by rw [hpos]; exact hzg)]
    obtain ⟨hrp, hro, hrg, hrb⟩ := resetBall_fields r1 r2 r3
      { Game.sideWallStep s with
        opponentScore := (Game.sideWallStep s).opponentScore + 1 }
    refine ⟨?_, ?_, ?_⟩
    · rw [hro]; simp only [hos]
    · rw [hrg]; simp only [hgo]
    · rw [hrb]; simp only [hlh]

/-- C2 witness for the amended claim: an out-of-bounds landing at score 10
ends the match immediately, while concrete states behind each back wall
restart the rally with the respective score incremented. -/
theorem game_over_check_coverage_witness :
    ((c1State.ballPos.y < -0.4 ∧ -0.6 < c1State.ballPos.y) ∧ 0 ≤ c1State.ballDir.y ∧
      (2 < |c1State.ballPos.x| ∨ 4 < |c1State.ballPos.z|) ∧
      10 ≤ (if c1State.lastHitByPlayer then 10 else c1State.opponentScore)) ∧
    (Game.checkTableCollision 0.5 0.5 0.5
      { c1State with playerScore := 10 }).isGameOver = true ∧
    ((Game.checkTableCollision 0.5 0.5 0.5
        { c2State with ballPos := ⟨0, 0, 7.6⟩ }).opponentScore =
      c2State.opponentScore + 1 ∧
      (Game.checkTableCollision 0.5 0.5 0.5
        { c2State with ballPos := ⟨0, 0, 7.6⟩ }).isGameOver = c2State.isGameOver) := by
  have h4 : (2 < |c1State.ballPos.x| ∨ 4 < |c1State.ballPos.z|) := by
    right; norm_num [c1State, abs]
  have hhyp : ({ c1State with playerScore := 10 } : Game.GameState).ballPos.y < -0.4 ∧
      -0.6 < ({ c1State with playerScore := 10 } : Game.GameState).ballPos.y := by
    constructor <;> norm_num [c1State]
  have hfront := (game_over_check_coverage 0.5 0.5 0.5
      { c2State with ballPos := ⟨0, 0, 7.6⟩ }).2.2.2
    ⟨by norm_num [c2State], by norm_num [c2State]⟩
  refine ⟨⟨⟨by norm_num [c1State], by norm_num [c1State]⟩, by norm_num [c1State],
    h4, by norm_num [c1State]⟩, ?_, hfront.1, hfront.2.1⟩
  exact (game_over_check_coverage 0.5 0.5 0.5 { c1State with playerScore := 10 }).1
    ⟨hhyp, by norm_num [c1State], h4, by norm_num [c1State]⟩

/-! ## C4 — what the net-contact test actually checks -/

/-- C4 counterexample state: the ball sits in the net slab (`|z| < 0.1`,
`y < 0`) but outside the net's horizontal span (`x = 1.5`, the net being
4.2/2 wide only in the other embedding; here the table half-width is 2) and
its z-velocity points **away** from the net plane (`z > 0`, `vz > 0`). -/
def c4State : Game.GameState :=
  { ballPos := ⟨1.5, -0.1, 0.05⟩, ballDir := ⟨0, 0, 0.05⟩,
    playerScore := 0, opponentScore := 0, isGameStarted := true,
    isGameOver := false, lastHitByPlayer := true }

/-- C4 counterexample: although the ball's z-velocity does not indicate a
crossing of the net plane (ball on the positive side moving further away),
`checkTableCollision` still registers a net contact and awards a net-fault
point to the opponent. -/
theorem net_contact_ignores_velocity_counterexample :
    0 < c4State.ballPos.z ∧ 0 < c4State.ballDir.z ∧
    (Game.checkTableCollision 0.5 0.5 0.5 c4State).opponentScore = 1 := by
  refine ⟨by norm_num [c4State], by norm_num [c4State], ?_⟩
  simp only [Game.checkTableCollision, Game.tableBounceStep, Game.sideWallStep,
    Game.scoringStep, Game.scoreOrReset, Game.resetBall, Game.gameOverStep,
    c4State]
  norm_num [abs]

/-- C4 amended: away from the other branches of `checkTableCollision`, a net
contact (z-reflection plus a net-fault point to the non-hitter) is registered
exactly when `|z| < 0.1` and `y < 0` — the test ignores both the x-span of
the net and the direction of the z-velocity; in particular a ball above the
net height never registers a contact, but one moving away from the net plane
does. -/
theorem net_contact_characterization (r1 r2 r3 : ℝ) (s : Game.GameState)
    (hy : -0.4 ≤ s.ballPos.y) (hx : |s.ballPos.x| ≤ 2)
    (hz1 : -7.5 ≤ s.ballPos.z) (hz2 : s.ballPos.z ≤ 7.5) :
    (¬(|s.ballPos.z| < 0.1 ∧ s.ballPos.y < 0) →
      Game.checkTableCollision r1 r2 r3 s = s) ∧
    (|s.ballPos.z| < 0.1 ∧ s.ballPos.y < 0 →
      (s.lastHitByPlayer = true →
        (Game.checkTableCollision r1 r2 r3 s).opponentScore = s.opponentScore + 1 ∧
        (Game.checkTableCollision r1 r2 r3 s).playerScore = s.playerScore) ∧
      (s.lastHitByPlayer = false →
        (Game.checkTableCollision r1 r2 r3 s).playerScore = s.playerScore + 1 ∧
        (Game.checkTableCollision r1 r2 r3 s).opponentScore = s.opponentScore)) := by
  have hbounce : Game.tableBounceStep s = s := by
    simp only [Game.tableBounceStep]
    rw [if_neg]
    rintro ⟨h1, -⟩
    exact absurd hy (not_le.mpr h1)
  have hct : Game.checkTableCollision r1 r2 r3 s = Game.scoringStep r1 r2 r3 s := by
    rw [Game.checkTableCollision, hbounce, sideWallStep_of_in s hx]
  have hoob : ¬ ((s.ballPos.y < -0.4 ∧ -0.6 < s.ballPos.y) ∧
      (2 < |s.ballPos.x| ∨ 4 < |s.ballPos.z|)) := by
    rintro ⟨⟨h1, -⟩, -⟩
    exact absurd hy (not_le.mpr h1)
  have hback : ¬ s.ballPos.z < -7.5 := not_lt.mpr hz1
  have hfront : ¬ 7.5 < s.ballPos.z := not_lt.mpr hz2
  constructor
  · intro hnot
    rw [hct]
    simp only [Game.scoringStep]
    rw [if_neg hoob, if_neg hback, if_neg hfront]
    by_cases hslab : |s.ballPos.z| < 0.1 ∧ s.ballPos.y < 0.3
    · rw [if_pos hslab]
      rw [if_neg (fun h0 => hnot ⟨hslab.1, h0⟩)]
    · rw [if_neg hslab]
  · rintro ⟨hzn, hyn⟩
    rw [hct]
    simp only [Game.scoringStep]
    rw [if_neg hoob, if_neg hback, if_neg hfront,
      if_pos ⟨hzn, by linarith⟩, if_pos hyn]
    constructor
    · intro hl
      rw [if_pos hl]
      obtain ⟨hp, ho⟩ := scoreOrReset_scores r1 r2 r3
        { s with ballDir := { s.ballDir with z := -s.ballDir.z },
                 opponentScore := s.opponentScore + 1 }
      exact ⟨ho, hp⟩
    · intro hl
      rw [if_neg (by rw [hl]; exact Bool.false_ne_true)]
      obtain ⟨hp, ho⟩ := scoreOrReset_scores r1 r2 r3
        { s with ballDir := { s.ballDir with z := -s.ballDir.z },
                 playerScore := s.playerScore + 1 }
      exact ⟨hp, ho⟩

/-- C4 witness for the amended claim: a ball passing the net region above net
height produces no contact, and the counterexample state (outgoing velocity)
still scores a net fault. -/
theorem net_contact_characterization_witness :
    (-0.4 ≤ c4State.ballPos.y ∧ |c4State.ballPos.x| ≤ 2 ∧
      -7.5 ≤ c4State.ballPos.z ∧ c4State.ballPos.z ≤ 7.5) ∧
    Game.checkTableCollision 0.5 0.5 0.5
      { c4State with ballPos := ⟨1.5, 0.2, 0.05⟩ } =
      { c4State with ballPos := ⟨1.5, 0.2, 0.05⟩ } ∧
    (Game.checkTableCollision 0.5 0.5 0.5 c4State).opponentScore =
      c4State.opponentScore + 1 := by
  have hhigh := (net_contact_characterization 0.5 0.5 0.5
    { c4State with ballPos := ⟨1.5, 0.2, 0.05⟩ }
    (by norm_num) (by norm_num [abs]) (by norm_num) (by norm_num)).1
    (by rintro ⟨-, h⟩; norm_num at h)
  have hlow := ((net_contact_characterization 0.5 0.5 0.5 c4State
    (by norm_num [c4State]) (by norm_num [c4State, abs])
    (by norm_num [c4State]) (by norm_num [c4State])).2
    ⟨by norm_num [c4State, abs], by norm_num [c4State]⟩).1 rfl
  exact ⟨⟨by norm_num [c4State], by norm_num [c4State, abs],
    by norm_num [c4State], by norm_num [c4State]⟩, hhigh, hlow.1⟩

/-! ## C3 — paddle-hit post-bounce invariants -/

lemma normSq_nonneg (v : Vec3 ℝ) : 0 ≤ Game.normSq v := by
  simp only [Game.normSq]
  positivity

lemma normSq_pos (v : Vec3 ℝ) (h : v ≠ ⟨0, 0, 0⟩) : 0 < Game.normSq v := by
  rcases lt_or_eq_of_le (normSq_nonneg v) with hlt | heq
  · exact hlt
  · exfalso
    apply h
    have heq' : v.x ^ 2 + v.y ^ 2 + v.z ^ 2 = 0 := (Game.normSq.eq_1 v) ▸ heq.symm
    have hx : v.x = 0 := by
      have h1 : v.x ^ 2 = 0 := le_antisymm
        (by nlinarith [sq_nonneg v.y, sq_nonneg v.z]) (sq_nonneg v.x)
      exact pow_eq_zero_iff two_ne_zero |>.mp h1
    have hy : v.y = 0 := by
      have h1 : v.y ^ 2 = 0 := le_antisymm
        (by nlinarith [sq_nonneg v.x, sq_nonneg v.z]) (sq_nonneg v.y)
      exact pow_eq_zero_iff two_ne_zero |>.mp h1
    have hz : v.z = 0 := by
      have h1 : v.z ^ 2 = 0 := le_antisymm
        (by nlinarith [sq_nonneg v.x, sq_nonneg v.y]) (sq_nonneg v.z)
      exact pow_eq_zero_iff two_ne_zero |>.mp h1
    cases v
    simp only [Vec3.mk.injEq]
    exact ⟨hx, hy, hz⟩

lemma vlen_pos (v : Vec3 ℝ) (h : v ≠ ⟨0, 0, 0⟩) : 0 < Game.vlen v :=
  Real.sqrt_pos.mpr (normSq_pos v h)

lemma vlen_smul (c : ℝ) (v : Vec3 ℝ) :
    Game.vlen (Game.vscale c v) = |c| * Game.vlen v := by
  simp only [Game.vlen, Game.vscale, Game.normSq]
  have h : (c * v.x) ^ 2 + (c * v.y) ^ 2 + (c * v.z) ^ 2 =
      c ^ 2 * (v.x ^ 2 + v.y ^ 2 + v.z ^ 2) := by ring
  rw [h, Real.sqrt_mul (sq_nonneg c), Real.sqrt_sq_eq_abs]

lemma vlen_normalize (v : Vec3 ℝ) (h : v ≠ ⟨0, 0, 0⟩) :
    Game.vlen (Game.vnormalize v) = 1 := by
  rw [Game.vnormalize, vlen_smul, abs_inv, abs_of_pos (vlen_pos v h),
    inv_mul_cancel₀ (ne_of_gt (vlen_pos v h))]

lemma vscale_y (c : ℝ) (v : Vec3 ℝ) : (Game.vscale c v).y = c * v.y := rfl

lemma vscale_z (c : ℝ) (v : Vec3 ℝ) : (Game.vscale c v).z = c * v.z := rfl

lemma vnormalize_y (v : Vec3 ℝ) :
    (Game.vnormalize v).y = (Game.vlen v)⁻¹ * v.y := rfl

lemma vnormalize_z (v : Vec3 ℝ) :
    (Game.vnormalize v).z = (Game.vlen v)⁻¹ * v.z := rfl

lemma basePaddleDirection_z_nonpos (ms mdx mdy : ℝ) :
    (Game.basePaddleDirection ms mdx mdy).z ≤ 0 := by
  simp only [Game.basePaddleDirection, Game.vscale, Game.swingDirection]
  split_ifs with h1 h2
  · simp only
    linarith
  · simp only
    push_neg at h2
    exact h2
  · norm_num

lemma rawPaddleDirection_z_nonpos (ms mdx mdy tilt ox oy : ℝ)
    (hcos : 0 ≤ Real.cos tilt) :
    (Game.rawPaddleDirection ms mdx mdy tilt ox oy).z ≤ 0 := by
  have hz : (Game.rawPaddleDirection ms mdx mdy tilt ox oy).z =
      (Game.basePaddleDirection ms mdx mdy).z +
        0.2 * (Real.cos tilt * (-0.8)) + 0.1 * 0 := rfl
  rw [hz]
  have hb := basePaddleDirection_z_nonpos ms mdx mdy
  nlinarith

/-- The speed scale `BALL_SPEED * speedMultiplier` is positive. -/
lemma hitSpeed_pos (ms : ℝ) : 0 < Game.ballSpeed * Game.speedMultiplier ms := by
  have h : (0.8 : ℝ) ≤ Game.speedMultiplier ms := le_max_left _ _
  have h2 : (0 : ℝ) < Game.ballSpeed := by norm_num [Game.ballSpeed]
  nlinarith

/-- `floorFix` preserves a non-positive z component and the norm, and leaves
the vertical component strictly positive. -/
lemma floorFix_invariants (speed : ℝ) (v : Vec3 ℝ) (hs : 0 < speed)
    (hz : v.z ≤ 0) (hlen : Game.vlen v = speed) :
    0 < (Game.floorFix speed v).y ∧ (Game.floorFix speed v).z ≤ 0 ∧
    Game.vlen (Game.floorFix speed v) = speed := by
  rw [Game.floorFix]
  by_cases hy : v.y < 0.05
  · rw [if_pos hy]
    have hw : (⟨v.x, 0.05, v.z⟩ : Vec3 ℝ) ≠ ⟨0, 0, 0⟩ := by
      intro hcontr
      rw [Vec3.mk.injEq] at hcontr
      norm_num at hcontr
    have hwlen := vlen_pos _ hw
    have hwy : ((⟨v.x, 0.05, v.z⟩ : Vec3 ℝ)).y = 0.05 := rfl
    have hwz : ((⟨v.x, 0.05, v.z⟩ : Vec3 ℝ)).z = v.z := rfl
    refine ⟨?_, ?_, ?_⟩
    · rw [vscale_y, vnormalize_y, hwy]
      positivity
    · rw [vscale_z, vnormalize_z, hwz]
      exact mul_nonpos_of_nonneg_of_nonpos (le_of_lt hs)
        (mul_nonpos_of_nonneg_of_nonpos (le_of_lt (inv_pos.mpr hwlen)) hz)
    · rw [vlen_smul, vlen_normalize _ hw, mul_one, abs_of_pos hs]
  · rw [if_neg hy]
    push_neg at hy
    exact ⟨by linarith, hz, hlen⟩

/-- `forwardFix` never fires after `floorFix` when z is already non-positive. -/
lemma forwardFix_noop (speed : ℝ) (v : Vec3 ℝ) (hz : v.z ≤ 0) :
    Game.forwardFix speed v = v := by
  rw [Game.forwardFix, if_neg (not_lt.mpr hz)]

/-- The post-hit invariants of `hitVelocity`: strictly positive vertical
component, non-positive z component (toward the opponent), and norm equal to
the computed speed. -/
lemma hitVelocity_invariants (ms mdx mdy tilt ox oy : ℝ)
    (hcos : 0 ≤ Real.cos tilt)
    (hraw : Game.rawPaddleDirection ms mdx mdy tilt ox oy ≠ ⟨0, 0, 0⟩) :
    0 < (Game.hitVelocity ms mdx mdy tilt ox oy).y ∧
    (Game.hitVelocity ms mdx mdy tilt ox oy).z ≤ 0 ∧
    Game.vlen (Game.hitVelocity ms mdx mdy tilt ox oy) =
      Game.ballSpeed * Game.speedMultiplier ms := by
  have hSpos := hitSpeed_pos ms
  have hLz := rawPaddleDirection_z_nonpos ms mdx mdy tilt ox oy hcos
  have hLlen := vlen_pos _ hraw
  have hv0len : Game.vlen (Game.vscale (Game.ballSpeed * Game.speedMultiplier ms)
      (Game.vnormalize (Game.rawPaddleDirection ms mdx mdy tilt ox oy))) =
      Game.ballSpeed * Game.speedMultiplier ms := by
    rw [vlen_smul, vlen_normalize _ hraw, mul_one, abs_of_pos hSpos]
  have hv0z : (Game.vscale (Game.ballSpeed * Game.speedMultiplier ms)
      (Game.vnormalize (Game.rawPaddleDirection ms mdx mdy tilt ox oy))).z ≤ 0 := by
    rw [vscale_z, vnormalize_z]
    exact mul_nonpos_of_nonneg_of_nonpos (le_of_lt hSpos)
      (mul_nonpos_of_nonneg_of_nonpos (inv_nonneg.mpr (le_of_lt hLlen)) hLz)
  obtain ⟨h1, h2, h3⟩ := floorFix_invariants (Game.ballSpeed * Game.speedMultiplier ms)
    (Game.vscale (Game.ballSpeed * Game.speedMultiplier ms)
      (Game.vnormalize (Game.rawPaddleDirection ms mdx mdy tilt ox oy)))
    hSpos hv0z hv0len
  simp only [Game.hitVelocity]
  rw [forwardFix_noop _ _ h2]
  exact ⟨h1, h2, h3⟩

/-- C3 amended (on a registered contact of `checkPaddleCollision`): the
resulting ball velocity always has a **strictly positive** vertical component
and a non-positive z component (toward the opponent), with its norm equal to
the computed speed `BALL_SPEED * speedMultiplier`; the 0.05 vertical floor
itself is only enforced before the final rescale and may be undershot (see
the counterexample). -/
theorem paddle_hit_invariants (ms mdx mdy tilt : ℝ) (paddlePos : Vec3 ℝ)
    (s : Game.GameState)
    (hhit : Game.vdist paddlePos s.ballPos < 0.5) (hdir : 0 < s.ballDir.z)
    (htilt : -(Real.pi / 2) ≤ tilt ∧ tilt ≤ Real.pi / 2)
    (hraw : Game.rawPaddleDirection ms mdx mdy tilt
      (s.ballPos.x - paddlePos.x) (s.ballPos.y - paddlePos.y) ≠ ⟨0, 0, 0⟩) :
    0 < (Game.checkPaddleCollision ms mdx mdy tilt paddlePos s).ballDir.y ∧
    (Game.checkPaddleCollision ms mdx mdy tilt paddlePos s).ballDir.z ≤ 0 ∧
    Game.vlen (Game.checkPaddleCollision ms mdx mdy tilt paddlePos s).ballDir =
      Game.ballSpeed * Game.speedMultiplier ms := by
  have hcos : 0 ≤ Real.cos tilt :=
    Real.cos_nonneg_of_mem_Icc (Set.mem_Icc.mpr ⟨htilt.1, htilt.2⟩)
  have hres : (Game.checkPaddleCollision ms mdx mdy tilt paddlePos s).ballDir =
      Game.hitVelocity ms mdx mdy tilt
        (s.ballPos.x - paddlePos.x) (s.ballPos.y - paddlePos.y) := by
    rw [Game.checkPaddleCollision, if_pos ⟨hhit, hdir⟩]
  rw [hres]
  exact hitVelocity_invariants ms mdx mdy tilt _ _ hcos hraw

/-- The game state of the C3 concrete scenario: the ball just in front of the
stationary player paddle, moving toward the player. -/
def c3State : Game.GameState :=
  { ballPos := ⟨0, 0, 1.4⟩, ballDir := ⟨0, 0, 0.05⟩,
    playerScore := 0, opponentScore := 0, isGameStarted := true,
    isGameOver := false, lastHitByPlayer := false }

lemma c3_raw_eq : Game.rawPaddleDirection 0 0 0 0 0 0 = ⟨0, 0, -1.16⟩ := by
  simp only [Game.rawPaddleDirection, Game.basePaddleDirection,
    Game.swingDirection, Game.vadd, Game.vscale, Real.sin_zero, Real.cos_zero]
  rw [if_neg (by norm_num)]
  rw [Vec3.mk.injEq]
  norm_num

lemma c3_speed_eq : Game.ballSpeed * Game.speedMultiplier 0 = 0.08 := by
  rw [Game.speedMultiplier, Game.clampR, Game.ballSpeed]
  rw [show (0.8 : ℝ) + 0 * 15 = 0.8 by norm_num]
  rw [min_eq_right (by norm_num), max_self]
  norm_num

lemma c3_hitVelocity_y : (Game.hitVelocity 0 0 0 0 0 0).y =
    0.08 * ((Real.sqrt 0.0089)⁻¹ * 0.05) := by
  have hlen_raw : Game.vlen (⟨0, 0, -1.16⟩ : Vec3 ℝ) = 1.16 := by
    simp only [Game.vlen, Game.normSq]
    rw [show (0:ℝ) ^ 2 + 0 ^ 2 + (-1.16) ^ 2 = 1.16 ^ 2 by norm_num,
      Real.sqrt_sq (by norm_num)]
  have hnorm_raw : Game.vnormalize (⟨0, 0, -1.16⟩ : Vec3 ℝ) = ⟨0, 0, -1⟩ := by
    rw [Game.vnormalize, hlen_raw, Game.vscale, Vec3.mk.injEq]
    norm_num
  have hv0 : Game.vscale (Game.ballSpeed * Game.speedMultiplier 0)
      (Game.vnormalize (Game.rawPaddleDirection 0 0 0 0 0 0)) =
      ⟨0, 0, -0.08⟩ := by
    rw [c3_raw_eq, hnorm_raw, c3_speed_eq, Game.vscale, Vec3.mk.injEq]
    norm_num
  have hwlen : Game.vlen (⟨0, 0.05, -0.08⟩ : Vec3 ℝ) = Real.sqrt 0.0089 := by
    simp only [Game.vlen, Game.normSq]
    norm_num
  have hfloor : Game.floorFix (Game.ballSpeed * Game.speedMultiplier 0)
      (⟨0, 0, -0.08⟩ : Vec3 ℝ) =
      Game.vscale (Game.ballSpeed * Game.speedMultiplier 0)
        (Game.vnormalize (⟨0, 0.05, -0.08⟩ : Vec3 ℝ)) := by
    rw [Game.floorFix, if_pos (by norm_num)]
  have hzneg : (Game.vscale (Game.ballSpeed * Game.speedMultiplier 0)
      (Game.vnormalize (⟨0, 0.05, -0.08⟩ : Vec3 ℝ))).z ≤ 0 := by
    rw [vscale_z, vnormalize_z, hwlen, c3_speed_eq]
    have hs : (0:ℝ) < Real.sqrt 0.0089 := Real.sqrt_pos.mpr (by norm_num)
    have hinv : (0:ℝ) ≤ (Real.sqrt 0.0089)⁻¹ := inv_nonneg.mpr (le_of_lt hs)
    have hz3 : ((⟨0, 0.05, -0.08⟩ : Vec3 ℝ)).z = -0.08 := rfl
    rw [hz3]
    nlinarith
  simp only [Game.hitVelocity]
  rw [hv0, hfloor, forwardFix_noop _ _ hzneg, vscale_y, vnormalize_y, hwlen,
    c3_speed_eq]

/-- C3 counterexample: at a registered paddle contact with no swing, no tilt
and a centered hit, the resulting vertical velocity is strictly positive but
**strictly below** the configured floor 0.05 — the floor is applied before
the renormalization-rescale, which shrinks the vertical component again. -/
theorem paddle_floor_counterexample :
    (Game.checkPaddleCollision 0 0 0 0 ⟨0, 0, 1.5⟩ c3State).ballDir.y < 0.05 ∧
    0 < (Game.checkPaddleCollision 0 0 0 0 ⟨0, 0, 1.5⟩ c3State).ballDir.y := by
  have hguard : Game.vdist (⟨0, 0, 1.5⟩ : Vec3 ℝ) c3State.ballPos < 0.5 := by
    have hd : Game.vdist (⟨0, 0, 1.5⟩ : Vec3 ℝ) c3State.ballPos =
        Real.sqrt 0.01 := by
      simp only [Game.vdist, Game.vlen, Game.normSq, c3State]
      norm_num
    rw [hd, show (0.01:ℝ) = 0.1 ^ 2 by norm_num, Real.sqrt_sq (by norm_num)]
    norm_num
  have hdir_eq : (Game.checkPaddleCollision 0 0 0 0 ⟨0, 0, 1.5⟩ c3State).ballDir =
      Game.hitVelocity 0 0 0 0 0 0 := by
    rw [Game.checkPaddleCollision, if_pos ⟨hguard, by norm_num [c3State]⟩]
    norm_num [c3State]
  rw [hdir_eq, c3_hitVelocity_y]
  have hs : (0:ℝ) < Real.sqrt 0.0089 := Real.sqrt_pos.mpr (by norm_num)
  have hkey : (0.08 : ℝ) < Real.sqrt 0.0089 :=
    (Real.lt_sqrt (by norm_num)).mpr (by norm_num)
  have hinv : (Real.sqrt 0.0089)⁻¹ < 0.08⁻¹ := by
    rw [inv_lt_inv₀ hs (by norm_num)]
    exact hkey
  constructor
  · have hinvpos : (0:ℝ) < (Real.sqrt 0.0089)⁻¹ := inv_pos.mpr hs
    nlinarith
  · have hinvpos : (0:ℝ) < (Real.sqrt 0.0089)⁻¹ := inv_pos.mpr hs
    nlinarith

/-- C3 witness for the amended claim: the invariants instantiated at the
concrete contact of the counterexample scenario. -/
theorem paddle_hit_invariants_witness :
    (Game.vdist (⟨0, 0, 1.5⟩ : Vec3 ℝ) c3State.ballPos < 0.5 ∧
      0 < c3State.ballDir.z ∧
      (-(Real.pi / 2) ≤ (0:ℝ) ∧ (0:ℝ) ≤ Real.pi / 2) ∧
      Game.rawPaddleDirection 0 0 0 0
        (c3State.ballPos.x - (⟨0, 0, 1.5⟩ : Vec3 ℝ).x)
        (c3State.ballPos.y - (⟨0, 0, 1.5⟩ : Vec3 ℝ).y) ≠ ⟨0, 0, 0⟩) ∧
    (0 < (Game.checkPaddleCollision 0 0 0 0 ⟨0, 0, 1.5⟩ c3State).ballDir.y ∧
      (Game.checkPaddleCollision 0 0 0 0 ⟨0, 0, 1.5⟩ c3State).ballDir.z ≤ 0 ∧
      Game.vlen (Game.checkPaddleCollision 0 0 0 0 ⟨0, 0, 1.5⟩ c3State).ballDir =
        Game.ballSpeed * Game.speedMultiplier 0) := by
  have hguard : Game.vdist (⟨0, 0, 1.5⟩ : Vec3 ℝ) c3State.ballPos < 0.5 := by
    have hd : Game.vdist (⟨0, 0, 1.5⟩ : Vec3 ℝ) c3State.ballPos =
        Real.sqrt 0.01 := by
      simp only [Game.vdist, Game.vlen, Game.normSq, c3State]
      norm_num
    rw [hd, show (0.01:ℝ) = 0.1 ^ 2 by norm_num, Real.sqrt_sq (by norm_num)]
    norm_num
  have hdirz : 0 < c3State.ballDir.z := by norm_num [c3State]
  have htilt : -(Real.pi / 2) ≤ (0:ℝ) ∧ (0:ℝ) ≤ Real.pi / 2 := by
    constructor <;> [linarith [Real.pi_pos]; positivity]
  have hraw : Game.rawPaddleDirection 0 0 0 0
      (c3State.ballPos.x - (⟨0, 0, 1.5⟩ : Vec3 ℝ).x)
      (c3State.ballPos.y - (⟨0, 0, 1.5⟩ : Vec3 ℝ).y) ≠ ⟨0, 0, 0⟩ := by
    have hargs : c3State.ballPos.x - (⟨0, 0, 1.5⟩ : Vec3 ℝ).x = 0 ∧
        c3State.ballPos.y - (⟨0, 0, 1.5⟩ : Vec3 ℝ).y = 0 := by
      constructor <;> norm_num [c3State]
    rw [hargs.1, hargs.2, c3_raw_eq]
    intro hcontr
    rw [Vec3.mk.injEq] at hcontr
    norm_num at hcontr
  exact ⟨⟨hguard, hdirz, htilt, hraw⟩,
    paddle_hit_invariants 0 0 0 0 ⟨0, 0, 1.5⟩ c3State hguard hdirz htilt hraw⟩

end

end PongSpec
